import Mathlib

/-!
Verification of the spring-store physics engine (src/lib/spring.ts and
src/lib/vec-math.ts) against its natural-language specification.

Modelling conventions:
- JavaScript numbers and the contents of Float32Array buffers are idealized
  as exact rationals, the standard shallow embedding for numeric code whose
  specified properties concern the algebraic structure of the computation.
- A Float32Array of fixed length n is a List of rationals; the length is
  fixed at construction by the value-shape adapter, and mismatched lengths
  are an undocumented precondition of the source (spec section 4.1), so the
  embedding uses zipWith and positional defaults where the source would
  produce NaN on nonconforming input.
- The asynchronous run loop of follow() is embedded as a small-step
  transition system.  JavaScript is single threaded, so external calls
  (pause, resume, skip, target set) and frame callbacks can only be observed
  by the loop at its two suspension points: the awaited animation frame and
  the awaited resume promise.  The model state records the suspension point,
  and each event runs the loop synchronously to its next suspension point or
  to exit, exactly as the source does.
-/

namespace Spring

/-! ## Vector math module (src/lib/vec-math.ts)

Each source function loops over the indices of its first argument; callers
always supply equal-length buffers (lengths are fixed by the value-shape
adapter, see spec section 4.1), so zipWith is the faithful embedding. -/

def add (vMut other : List ℚ) : List ℚ :=
  vMut.zipWith (fun a b => a + b) other

def sub (vMut other : List ℚ) : List ℚ :=
  vMut.zipWith (fun a b => a - b) other

def scale (vMut : List ℚ) (k : ℚ) : List ℚ :=
  vMut.map (fun a => a * k)

/-- Sum of squares computed by norm before taking the square root;
norm itself is Real.sqrt of this quantity. -/
def normSq (v : List ℚ) : ℚ :=
  (v.map (fun a => a * a)).sum

/-! ## Value shapes and the shape adapter (spring.ts lines 268-310)

The source inspects the constructor value once: a number uses the scalar
code path, an array or record uses the keyed code path with valueKeys
captured from the initial value (for an array, Object.keys yields the index
strings, making the keyed access positional). -/

inductive SpringValue where
  | num (x : ℚ)
  | arr (xs : List ℚ)
  | obj (fields : List (String × ℚ))
deriving DecidableEq

inductive Shape where
  | num
  | arr (n : ℕ)
  | obj (keys : List String)
deriving DecidableEq

/-- The shape captured once from the constructor value. -/
def shapeOf : SpringValue → Shape
  | .num _ => .num
  | .arr xs => .arr xs.length
  | .obj fs => .obj (fs.map Prod.fst)

/-- Lookup v[k] on a record (JavaScript object keys are unique). -/
def recGet (fields : List (String × ℚ)) (k : String) : ℚ :=
  ((fields.find? (fun p => p.1 == k)).map Prod.snd).getD 0

/-- Models valueToFloat32Array (spring.ts lines 277-287): scalar becomes a length-1
buffer; array and record are read through the captured keys. -/
def valueToFloat32Array : Shape → SpringValue → List ℚ
  | .num, .num x => [x]
  | .arr n, .arr xs => (List.range n).map (fun i => xs.getD i 0)
  | .obj keys, .obj fs => keys.map (fun k => recGet fs k)
  | _, _ => []

/-- Models float32ArrayToValue (spring.ts lines 288-298): scalar reads arr[0];
array and record clone the all-zeros container and assign each captured key
positionally from the buffer. -/
def float32ArrayToValue : Shape → List ℚ → SpringValue
  | .num, b => .num (b.headD 0)
  | .arr n, b => .arr ((List.range n).map (fun i => b.getD i 0))
  | .obj keys, b => .obj (keys.zip b)

/-- A value conforms to the instance shape (spec section 4.4 makes
nonconforming later values an undocumented precondition). -/
def conforms : Shape → SpringValue → Bool
  | .num, .num _ => true
  | .arr n, .arr xs => xs.length = n
  | .obj keys, .obj fs => fs.map Prod.fst == keys
  | _, _ => false

/-- JavaScript object keys are pairwise distinct; captured key lists with
duplicates cannot arise from a real constructor value. -/
def shapeKeysNodup : Shape → Bool
  | .obj keys => decide keys.Nodup
  | _ => true

/-! ## The integrator (spring.ts lines 368-389)

integrate reads the module-level remainingDelta, stiffness and damping that
are live at the time of the call; they are explicit parameters here. -/

structure PhysicsState where
  velocity : List ℚ
  value : List ℚ
deriving DecidableEq

def integrate (stiffness damping : ℚ) (remainingDelta : List ℚ) (dt : ℚ)
    (state : PhysicsState) : PhysicsState :=
  let elasticForce := scale remainingDelta stiffness
  let friction := scale state.velocity damping
  let acceleration := sub elasticForce friction
  let dVelocity := scale acceleration dt
  let velocity := add dVelocity state.velocity
  let dValue := scale velocity dt
  { value := add dValue state.value
    velocity := velocity }

/-- State threaded through the sub-step while loop of the running case
(spring.ts lines 444-452). -/
structure SubLoopState where
  remainingDelta : List ℚ
  previousState : PhysicsState
  physicsState : PhysicsState
  remainingDt : ℚ
deriving DecidableEq

/-- One iteration of the sub-step while loop: latch remainingDelta from the
live target, save the previous physics state, integrate, consume dt. -/
def substepOnce (stiffness damping dt : ℚ) (targetValue : List ℚ)
    (s : SubLoopState) : SubLoopState :=
  let rd := sub targetValue s.physicsState.value
  { remainingDelta := rd
    previousState := s.physicsState
    physicsState := integrate stiffness damping rd dt s.physicsState
    remainingDt := s.remainingDt - dt }

/-! ## The frame-interval sample (spring.ts lines 438-441)

remainingDt = Math.min(maxDt, (currentTime - previousTime) / 1000 || dt).
JavaScript || substitutes dt only when its left operand is falsy, that is
exactly 0 (or NaN); a negative difference is truthy and passes through. -/

def sampleDt (maxDt dtCfg tp tc : ℚ) : ℚ :=
  min maxDt (if (tc - tp) / 1000 = 0 then dtCfg else (tc - tp) / 1000)

/-- Number of iterations of the sub-step while loop: it runs while
remainingDt > 0, subtracting dt each time, hence ceil(remainingDt / dt)
iterations.  For dt <= 0 the source loop would not terminate; positive dt is
a configuration precondition (spec section 3). -/
def substepCount (remainingDt dt : ℚ) : ℕ :=
  if 0 < dt then (⌈remainingDt / dt⌉).toNat else 0

def substepIter (stiffness damping dt : ℚ) (targetValue : List ℚ) :
    ℕ → SubLoopState → SubLoopState
  | 0, s => s
  | n + 1, s => substepIter stiffness damping dt targetValue n
      (substepOnce stiffness damping dt targetValue s)

/-- Models skipToTarget (spring.ts lines 390-396): zero the remaining delta, zero
the velocity and copy the latched target into the value, for a buffer of
the instance length n. -/
def skipToTarget (n : ℕ) (targetValue : List ℚ) : PhysicsState :=
  { velocity := List.replicate n 0
    value := targetValue }

/-- The stop condition read after a frame (spring.ts lines 468-472):
no component of the recorded remainingDelta and none of the current
velocity reaches the precision threshold. -/
def stopCond (precision : ℚ) (remainingDelta velocity : List ℚ) : Prop :=
  ¬((∃ x ∈ remainingDelta, precision ≤ |x|) ∨
    (∃ x ∈ velocity, precision ≤ |x|))

instance (p : ℚ) (rd vel : List ℚ) : Decidable (stopCond p rd vel) := by
  unfold stopCond
  infer_instance

/-- Everything the running case computes from one frame interval
(spring.ts lines 435-477). -/
structure FrameOut where
  physicsState : PhysicsState
  interpolated : PhysicsState
  remainingDelta : List ℚ
  ratio : ℚ
  done : Bool
deriving DecidableEq

/-- The sub-step while loop of one frame: starting from the current physics
state (also recorded as previousState) it runs whole sub-steps until the
remaining interval is exhausted. -/
def frameSubloop (stiffness damping dtCfg : ℚ) (targetValue : List ℚ)
    (phys : PhysicsState) (rd0 : List ℚ) (remainingDt : ℚ) : SubLoopState :=
  substepIter stiffness damping dtCfg targetValue
    (substepCount remainingDt dtCfg)
    { remainingDelta := rd0
      previousState := phys
      physicsState := phys
      remainingDt := remainingDt }

/-- The running case body after the two frame timestamps are known:
consume the sampled interval by whole sub-steps, blend the last two physics
states with the interpolation ratio, then evaluate the stop condition and
snap to the target when it holds. -/
def runFrame (n : ℕ) (stiffness damping precision dtCfg : ℚ)
    (targetValue : List ℚ) (phys : PhysicsState) (rd0 : List ℚ)
    (remainingDt : ℚ) : FrameOut :=
  let s := frameSubloop stiffness damping dtCfg targetValue phys rd0
      remainingDt
  let ratio := 1 + s.remainingDt / dtCfg
  let interp : PhysicsState :=
    { value := add (scale s.physicsState.value ratio)
        (scale s.previousState.value (1 - ratio))
      velocity := add (scale s.physicsState.velocity ratio)
        (scale s.previousState.velocity (1 - ratio)) }
  if stopCond precision s.remainingDelta s.physicsState.velocity then
    { physicsState := skipToTarget n targetValue
      interpolated := skipToTarget n targetValue
      remainingDelta := List.replicate n 0
      ratio := ratio
      done := true }
  else
    { physicsState := s.physicsState
      interpolated := interp
      remainingDelta := s.remainingDelta
      ratio := ratio
      done := false }

/-! ## The asynchronous state machine of follow/pause/resume/skip

The loop suspends only while awaiting an animation frame or the resume
promise; every other stretch of the source runs synchronously.  LoopPoint
records where the single loop is suspended. -/

inductive SState where
  | idle
  | running
  | pausing
  | paused
  | skipping
deriving DecidableEq, Fintype

inductive LoopPoint where
  | none
  | awaitFrame1
  | awaitFrame2
  | awaitResume
deriving DecidableEq, Fintype

/-- Distinguished error kinds (spring.ts lines 30-44). -/
inductive SpringError where
  | skipErr
  | pauseErr
deriving DecidableEq

/-- Observable settlement of a pause() promise. -/
inductive PauseOutcome where
  | resolved
  | rejected (e : SpringError)
deriving DecidableEq

structure Model where
  n : ℕ
  sstate : SState
  loopPoint : LoopPoint
  physicsState : PhysicsState
  interpolated : PhysicsState
  targetValue : List ℚ
  remainingDelta : List ℚ
  previousTime : Option ℚ
  stiffness : ℚ
  damping : ℚ
  precision : ℚ
  dtCfg : ℚ
  maxDt : ℚ
  pausePending : Bool
  resumePending : Bool
  currentPub : List ℚ
  velocityPub : List ℚ
  stateLog : List SState
  pauseLog : List PauseOutcome
deriving DecidableEq

/-- Models state$.set: record the new state and notify subscribers by appending to
the observed emission log. -/
def emit (m : Model) (s : SState) : Model :=
  { m with sstate := s, stateLog := m.stateLog ++ [s] }

/-- Models current$.set and velocity$.set at the bottom of every loop iteration
(spring.ts lines 485-486). -/
def publish (m : Model) : Model :=
  { m with currentPub := m.interpolated.value
           velocityPub := m.interpolated.velocity }

/-- Loop exit: the finally block sets state$ to idle (spring.ts line 489). -/
def exitLoop (m : Model) : Model :=
  { emit m SState.idle with loopPoint := .none }

/-- The skipping case of the switch (spring.ts lines 413-418) followed by
the bottom publish and loop exit. -/
def runSkipCase (m : Model) : Model :=
  exitLoop (publish { m with
    physicsState := skipToTarget m.n m.targetValue
    interpolated := skipToTarget m.n m.targetValue
    remainingDelta := List.replicate m.n 0 })

/-- The top of a loop iteration entered while the loop keeps going: the
switch dispatches on the live state (spring.ts line 412).  The paused and
idle cases cannot be observed here in a reachable configuration (the loop
itself leaves paused before resuming the iteration, and idle is only set
after exit); for totality they leave the model unchanged. -/
def loopTop (m : Model) : Model :=
  match m.sstate with
  | .running => { m with loopPoint := .awaitFrame2 }
  | .pausing =>
      let m1 := { emit m SState.paused with
        pausePending := false
        pauseLog := m.pauseLog ++ [PauseOutcome.resolved] }
      if m.resumePending then
        { m1 with loopPoint := .awaitResume }
      else
        { publish (emit m1 SState.running) with loopPoint := .awaitFrame2 }
  | .skipping => runSkipCase m
  | _ => m

/-- A frame timestamp arrives for the second awaited frame: run the frame
computation, publish, and either exit (stop condition) or dispatch the next
iteration. -/
def onFrame2 (m : Model) (t : ℚ) : Model :=
  match m.previousTime with
  | Option.none => m
  | Option.some tp =>
      let rdt := sampleDt m.maxDt m.dtCfg tp t
      let fr := runFrame m.n m.stiffness m.damping m.precision m.dtCfg
          m.targetValue m.physicsState m.remainingDelta rdt
      let m1 := publish { m with
        physicsState := fr.physicsState
        interpolated := fr.interpolated
        remainingDelta := fr.remainingDelta
        previousTime := Option.some t }
      if fr.done then exitLoop m1 else loopTop m1

/-- An animation-frame timestamp is delivered to the pending frame wait.
Frames delivered while the loop is not awaiting one are dropped (no wait is
pending in the source then). -/
def onFrame (m : Model) (t : ℚ) : Model :=
  match m.loopPoint with
  | .awaitFrame1 =>
      { m with previousTime := Option.some t, loopPoint := .awaitFrame2 }
  | .awaitFrame2 => onFrame2 m t
  | _ => m

/-- Models target$.set (spring.ts lines 348-357): latch the buffer, then follow()
starts the loop only when the state is idle. -/
def onSetTarget (m : Model) (v : List ℚ) : Model :=
  let m1 := { m with targetValue := v }
  if m1.sstate = SState.idle then
    { emit m1 SState.running with
      previousTime := Option.none
      loopPoint := .awaitFrame1 }
  else m1

/-- Models pause() (spring.ts lines 519-552): only a running store transitions to
pausing and installs fresh pause and resume promises; otherwise the call
just awaits whatever pause promise exists. -/
def onPause (m : Model) : Model :=
  if m.sstate = SState.running then
    { emit m SState.pausing with
      pausePending := true
      resumePending := true }
  else m

/-- Models resume(): it resolves the resume promise.  If the loop is suspended on it,
the pausing case continues: state$ is set to running, the iteration
publishes, and the loop awaits the next frame.  If the promise exists but
the loop has not reached the pausing case yet, it is resolved and cleared so
that the later await completes immediately. -/
def onResume (m : Model) : Model :=
  if m.resumePending then
    let m1 := { m with resumePending := false }
    if m.loopPoint = LoopPoint.awaitResume then
      { publish (emit m1 SState.running) with loopPoint := .awaitFrame2 }
    else m1
  else m

/-- Models skip() (spring.ts lines 556-568): in running, pausing or paused state
set skipping, then reject the resume and pause promises with a skip error.
The additional idlePromise guard of the source always holds alongside a
non-idle state (the state subscriber creates the promise whenever the state
leaves idle), so it needs no separate model field.
Rejecting the awaited resume promise makes the loop catch the error, snap to
the target and exit. -/
def onSkip (m : Model) : Model :=
  if m.sstate = SState.running ∨ m.sstate = SState.pausing ∨
      m.sstate = SState.paused then
    let m1 := emit m SState.skipping
    let m2 :=
      if m1.resumePending then
        let m2a := { m1 with resumePending := false }
        if m1.loopPoint = LoopPoint.awaitResume then runSkipCase m2a else m2a
      else m1
    if m2.pausePending then
      { m2 with
        pausePending := false
        pauseLog := m2.pauseLog ++ [PauseOutcome.rejected SpringError.skipErr] }
    else m2
  else m

/-- External events: the three mutators, a target set, the control calls
and a frame callback with its timestamp. -/
inductive Event where
  | setTarget (v : List ℚ)
  | frame (t : ℚ)
  | callPause
  | callResume
  | callSkip
  | setStiffness (q : ℚ)
  | setDamping (q : ℚ)
  | setPrecision (q : ℚ)

def step (m : Model) : Event → Model
  | .setTarget v => onSetTarget m v
  | .frame t => onFrame m t
  | .callPause => onPause m
  | .callResume => onResume m
  | .callSkip => onSkip m
  | .setStiffness q => { m with stiffness := q }
  | .setDamping q => { m with damping := q }
  | .setPrecision q => { m with precision := q }

def steps (m : Model) (es : List Event) : Model :=
  es.foldl step m

/-- The store as built by makeSpringStore from an initial buffer and the
configuration (defaults: stiffness 300, damping 30, precision 0.1,
dt 1/300, maxDt 1/24).  target$.subscribe fires once at construction,
latching the initial value as the target without starting the loop. -/
def mkSpring (buf : List ℚ) (stiffness damping precision dtCfg maxDt : ℚ) :
    Model :=
  { n := buf.length
    sstate := .idle
    loopPoint := .none
    physicsState := { velocity := List.replicate buf.length 0, value := buf }
    interpolated := { velocity := List.replicate buf.length 0, value := buf }
    targetValue := buf
    remainingDelta := List.replicate buf.length 0
    previousTime := Option.none
    stiffness := stiffness
    damping := damping
    precision := precision
    dtCfg := dtCfg
    maxDt := maxDt
    pausePending := false
    resumePending := false
    currentPub := buf
    velocityPub := List.replicate buf.length 0
    stateLog := [SState.idle]
    pauseLog := [] }

/-- A model reachable from a freshly constructed store by some event
sequence. -/
def Reachable (buf : List ℚ) (st da pr dt mx : ℚ) (m : Model) : Prop :=
  ∃ es : List Event, m = steps (mkSpring buf st da pr dt mx) es

/-- The state-sequence grammar claimed by the specification for one run
episode: idle, running, [pausing, paused, running]*, (skipping|nothing),
idle.  This definition follows the words of the spec (section 5), to be
compared with what the code emits. -/
def specEpisodeTail : List SState → Bool
  | [SState.idle] => true
  | [SState.skipping, SState.idle] => true
  | SState.pausing :: SState.paused :: SState.running :: rest =>
      specEpisodeTail rest
  | _ => false

def specEpisode : List SState → Bool
  | SState.idle :: SState.running :: rest => specEpisodeTail rest
  | _ => false

/-- The consecutive state emissions the implementation can actually
produce. -/
def allowedPair : SState → SState → Bool
  | .idle, .running => true
  | .running, .pausing => true
  | .running, .skipping => true
  | .running, .idle => true
  | .pausing, .paused => true
  | .pausing, .skipping => true
  | .pausing, .idle => true
  | .paused, .running => true
  | .paused, .skipping => true
  | .skipping, .idle => true
  | _, _ => false

/-- Which suspension points the loop can be parked at in each state:
while idle there is no loop; while running, pausing or skipping the loop is
awaiting an animation frame; while paused it is awaiting the resume
promise. -/
def loopOK : SState → LoopPoint → Bool
  | .idle, .none => true
  | .running, .awaitFrame1 => true
  | .running, .awaitFrame2 => true
  | .pausing, .awaitFrame1 => true
  | .pausing, .awaitFrame2 => true
  | .paused, .awaitResume => true
  | .skipping, .awaitFrame1 => true
  | .skipping, .awaitFrame2 => true
  | _, _ => false

def isSetTarget : Event → Bool
  | .setTarget _ => true
  | _ => false

/-! ### List access helpers -/

theorem getD_map (f : ℚ → ℚ) (l : List ℚ) (i : ℕ) (hi : i < l.length) :
    (l.map f).getD i 0 = f (l.getD i 0) := by
  induction l generalizing i with
  | nil => simp at hi
  | cons a t ih =>
    cases i with
    | zero => simp
    | succ j =>
      simp only [List.map_cons, List.getD_cons_succ]
      exact ih j (by simpa using hi)

theorem getD_zipWith (f : ℚ → ℚ → ℚ) (a b : List ℚ) (i : ℕ)
    (ha : i < a.length) (hb : i < b.length) :
    (a.zipWith f b).getD i 0 = f (a.getD i 0) (b.getD i 0) := by
  induction a generalizing b i with
  | nil => simp at ha
  | cons x t ih =>
    cases b with
    | nil => simp at hb
    | cons y u =>
      cases i with
      | zero => simp
      | succ j =>
        simp only [List.zipWith_cons_cons, List.getD_cons_succ]
        exact ih u j (by simpa using ha) (by simpa using hb)

theorem length_add (a b : List ℚ) : (add a b).length = min a.length b.length := by
  simp [add]

theorem length_sub (a b : List ℚ) : (sub a b).length = min a.length b.length := by
  simp [sub]

theorem length_scale (a : List ℚ) (k : ℚ) : (scale a k).length = a.length := by
  simp [scale]

/-! ### Round-trip helpers for the shape adapter -/

theorem map_getD_range (xs : List ℚ) :
    (List.range xs.length).map (fun i => xs.getD i 0) = xs := by
  induction xs with
  | nil => simp
  | cons a t ih =>
    rw [List.length_cons, List.range_succ_eq_map]
    simp only [List.map_cons, List.getD_cons_zero, List.map_map]
    refine congrArg (a :: ·) ?_
    calc (List.range t.length).map ((fun i => (a :: t).getD i 0) ∘ Nat.succ)
        = (List.range t.length).map (fun i => t.getD i 0) := by
          refine List.map_congr_left ?_
          intro i _
          simp
      _ = t := ih

theorem recGet_head (k : String) (x : ℚ) (t : List (String × ℚ)) :
    recGet ((k, x) :: t) k = x := by
  simp [recGet]

theorem recGet_tail (k q : String) (x : ℚ) (t : List (String × ℚ))
    (hne : q ≠ k) : recGet ((k, x) :: t) q = recGet t q := by
  simp only [recGet, List.find?]
  have : ((k, x).1 == q) = false := by
    simp [BEq.beq]
    exact fun h => (hne h.symm).elim
  rw [this]

theorem keys_map_recGet (fs : List (String × ℚ))
    (hnd : (fs.map Prod.fst).Nodup) :
    (fs.map Prod.fst).map (fun k => recGet fs k) = fs.map Prod.snd := by
  induction fs with
  | nil => simp
  | cons p t ih =>
    obtain ⟨k, x⟩ := p
    simp only [List.map_cons, List.nodup_cons] at hnd ⊢
    refine congrArg₂ (· :: ·) (recGet_head k x t) ?_
    calc (t.map Prod.fst).map (fun q => recGet ((k, x) :: t) q)
        = (t.map Prod.fst).map (fun q => recGet t q) := by
          refine List.map_congr_left ?_
          intro q hq
          exact recGet_tail k q x t (fun h => hnd.1 (h ▸ hq))
      _ = t.map Prod.snd := ih hnd.2

theorem zip_map_fst_snd (fs : List (String × ℚ)) :
    (fs.map Prod.fst).zip (fs.map Prod.snd) = fs := by
  induction fs with
  | nil => rfl
  | cons p t ih => simp [ih]

/-! ### The reachable-state invariant of the run loop -/

/-- Facts that hold in every reachable model: the emission log is a chain of
implementable transitions starting at idle and ending at the current state;
whenever the store is idle the published value equals the latched target and
the published velocity is zero; the loop is parked at a suspension point
consistent with the state; a pausing store has a pending pause promise and a
paused store a pending resume promise. -/
structure Inv (m : Model) : Prop where
  headLog : m.stateLog.head? = some SState.idle
  chainLog : List.Chain' (fun a b => allowedPair a b = true) m.stateLog
  lastLog : m.stateLog.getLast? = some m.sstate
  idleCur : m.sstate = SState.idle → m.currentPub = m.targetValue
  idleVel : m.sstate = SState.idle → m.velocityPub = List.replicate m.n 0
  loop : loopOK m.sstate m.loopPoint = true
  pausingPend : m.sstate = SState.pausing → m.pausePending = true
  pausedResume : m.sstate = SState.paused → m.resumePending = true

theorem head?_append_left {l l2 : List SState} {a : SState}
    (h : l.head? = some a) : (l ++ l2).head? = some a := by
  cases l with
  | nil => simp at h
  | cons x t => simpa using h

theorem chain_append_one {l : List SState} {a b : SState}
    (hc : List.Chain' (fun x y => allowedPair x y = true) l)
    (hl : l.getLast? = some a) (hR : allowedPair a b = true) :
    List.Chain' (fun x y => allowedPair x y = true) (l ++ [b]) := by
  rw [List.chain'_append]
  refine ⟨hc, List.chain'_singleton b, ?_⟩
  intro x hx y hy
  rw [hl] at hx
  simp only [Option.mem_def, Option.some.injEq] at hx hy
  cases hy
  cases hx
  exact hR

theorem inv_mkSpring (buf : List ℚ) (st da pr dt mx : ℚ) :
    Inv (mkSpring buf st da pr dt mx) := by
  refine ⟨rfl, List.chain'_singleton _, by simp [mkSpring], fun _ => rfl,
    fun _ => rfl, rfl, ?_, ?_⟩
  · intro h
    simp [mkSpring] at h
  · intro h
    simp [mkSpring] at h

theorem inv_onSetTarget (m : Model) (v : List ℚ) (hI : Inv m) :
    Inv (onSetTarget m v) := by
  simp only [onSetTarget, emit]
  by_cases h : m.sstate = SState.idle
  · rw [if_pos h]
    exact ⟨head?_append_left hI.headLog,
      chain_append_one hI.chainLog (by rw [hI.lastLog, h]) (by decide),
      List.getLast?_concat _,
      fun hc => (nomatch hc), fun hc => (nomatch hc),
      rfl, fun hc => (nomatch hc),
      fun hc => (nomatch hc)⟩
  · rw [if_neg h]
    exact ⟨hI.headLog, hI.chainLog, hI.lastLog,
      fun hc => absurd hc h, fun hc => absurd hc h, hI.loop,
      hI.pausingPend, hI.pausedResume⟩

theorem inv_onPause (m : Model) (hI : Inv m) : Inv (onPause m) := by
  simp only [onPause, emit]
  by_cases h : m.sstate = SState.running
  · rw [if_pos h]
    refine ⟨head?_append_left hI.headLog,
      chain_append_one hI.chainLog (by rw [hI.lastLog, h]) (by decide),
      List.getLast?_concat _,
      fun hc => (nomatch hc), fun hc => (nomatch hc),
      ?_, fun _ => rfl, fun hc => (nomatch hc)⟩
    have hstep : ∀ lp, loopOK SState.running lp = true →
        loopOK SState.pausing lp = true := by decide
    exact hstep m.loopPoint (h ▸ hI.loop)
  · rw [if_neg h]
    exact hI

theorem inv_onResume (m : Model) (hI : Inv m) : Inv (onResume m) := by
  simp only [onResume, emit, publish]
  by_cases hr : m.resumePending = true
  · rw [if_pos hr]
    by_cases hlp : m.loopPoint = LoopPoint.awaitResume
    · have hpaused : m.sstate = SState.paused := by
        have hstep : ∀ s, loopOK s LoopPoint.awaitResume = true →
            s = SState.paused := by decide
        exact hstep m.sstate (hlp ▸ hI.loop)
      rw [if_pos hlp]
      exact ⟨head?_append_left hI.headLog,
        chain_append_one hI.chainLog (by rw [hI.lastLog, hpaused]) (by decide),
        List.getLast?_concat _,
        fun hc => (nomatch hc), fun hc => (nomatch hc),
        rfl, fun hc => (nomatch hc),
        fun hc => (nomatch hc)⟩
    · rw [if_neg hlp]
      refine ⟨hI.headLog, hI.chainLog, hI.lastLog, hI.idleCur, hI.idleVel,
        hI.loop, hI.pausingPend, ?_⟩
      intro hp
      have hres : ∀ lp, loopOK SState.paused lp = true →
          lp = LoopPoint.awaitResume := by decide
      exact absurd (hres m.loopPoint (hp ▸ hI.loop)) hlp
  · rw [if_neg hr]
    exact hI

theorem runFrame_done_interp (n : ℕ) (S D p dt : ℚ) (tv : List ℚ)
    (phys : PhysicsState) (rd0 : List ℚ) (rdt : ℚ)
    (h : (runFrame n S D p dt tv phys rd0 rdt).done = true) :
    (runFrame n S D p dt tv phys rd0 rdt).interpolated = skipToTarget n tv := by
  unfold runFrame
  dsimp only
  split
  case isTrue => rfl
  case isFalse hc =>
    unfold runFrame at h
    dsimp only at h
    rw [if_neg hc] at h
    simp at h

theorem inv_onSkip (m : Model) (hI : Inv m) : Inv (onSkip m) := by
  simp only [onSkip, emit, runSkipCase, exitLoop, publish, skipToTarget]
  by_cases hg : m.sstate = SState.running ∨ m.sstate = SState.pausing ∨
      m.sstate = SState.paused
  · rw [if_pos hg]
    have hallow : allowedPair m.sstate SState.skipping = true := by
      rcases hg with h | h | h <;> rw [h] <;> decide
    by_cases hrp : m.resumePending = true
    · rw [if_pos hrp]
      by_cases hlp : m.loopPoint = LoopPoint.awaitResume
      · rw [if_pos hlp]
        -- the loop was parked on the resume promise: the rejection makes it
        -- snap to the target, publish and exit to idle in this same turn
        have hchain2 : List.Chain'
            (fun a b => allowedPair a b = true)
            ((m.stateLog ++ [SState.skipping]) ++ [SState.idle]) :=
          chain_append_one
            (chain_append_one hI.chainLog (by rw [hI.lastLog]) hallow)
            (List.getLast?_concat _) (by decide)
        by_cases hpp : m.pausePending = true
        · rw [if_pos hpp]
          exact ⟨head?_append_left (head?_append_left hI.headLog), hchain2,
            List.getLast?_concat _, fun _ => rfl, fun _ => rfl, rfl,
            fun hc => (nomatch hc), fun hc => (nomatch hc)⟩
        · rw [if_neg hpp]
          exact ⟨head?_append_left (head?_append_left hI.headLog), hchain2,
            List.getLast?_concat _, fun _ => rfl, fun _ => rfl, rfl,
            fun hc => (nomatch hc), fun hc => (nomatch hc)⟩
      · rw [if_neg hlp]
        have hloop2 : loopOK SState.skipping m.loopPoint = true := by
          have hres : ∀ s lp, loopOK s lp = true →
              (s = SState.running ∨ s = SState.pausing ∨ s = SState.paused) →
              lp ≠ LoopPoint.awaitResume →
              loopOK SState.skipping lp = true := by decide
          exact hres m.sstate m.loopPoint hI.loop hg hlp
        by_cases hpp : m.pausePending = true
        · rw [if_pos hpp]
          exact ⟨head?_append_left hI.headLog,
            chain_append_one hI.chainLog (by rw [hI.lastLog]) hallow,
            List.getLast?_concat _, fun hc => (nomatch hc),
            fun hc => (nomatch hc), hloop2, fun hc => (nomatch hc),
            fun hc => (nomatch hc)⟩
        · rw [if_neg hpp]
          exact ⟨head?_append_left hI.headLog,
            chain_append_one hI.chainLog (by rw [hI.lastLog]) hallow,
            List.getLast?_concat _, fun hc => (nomatch hc),
            fun hc => (nomatch hc), hloop2, fun hc => (nomatch hc),
            fun hc => (nomatch hc)⟩
    · rw [if_neg hrp]
      have hnp : ¬m.sstate = SState.paused := by
        intro hp
        exact hrp (hI.pausedResume hp)
      have hloop2 : loopOK SState.skipping m.loopPoint = true := by
        have hres : ∀ s lp, loopOK s lp = true →
            (s = SState.running ∨ s = SState.pausing ∨ s = SState.paused) →
            s ≠ SState.paused →
            loopOK SState.skipping lp = true := by decide
        exact hres m.sstate m.loopPoint hI.loop hg hnp
      by_cases hpp : m.pausePending = true
      · rw [if_pos hpp]
        exact ⟨head?_append_left hI.headLog,
          chain_append_one hI.chainLog (by rw [hI.lastLog]) hallow,
          List.getLast?_concat _, fun hc => (nomatch hc),
          fun hc => (nomatch hc), hloop2, fun hc => (nomatch hc),
          fun hc => (nomatch hc)⟩
      · rw [if_neg hpp]
        exact ⟨head?_append_left hI.headLog,
          chain_append_one hI.chainLog (by rw [hI.lastLog]) hallow,
          List.getLast?_concat _, fun hc => (nomatch hc),
          fun hc => (nomatch hc), hloop2, fun hc => (nomatch hc),
          fun hc => (nomatch hc)⟩
  · rw [if_neg hg]
    exact hI

theorem inv_onFrame (m : Model) (t : ℚ) (hI : Inv m) : Inv (onFrame m t) := by
  unfold onFrame
  cases hlp : m.loopPoint with
  | none => exact hI
  | awaitResume => exact hI
  | awaitFrame1 =>
      refine ⟨hI.headLog, hI.chainLog, hI.lastLog, hI.idleCur, hI.idleVel,
        ?_, hI.pausingPend, hI.pausedResume⟩
      have hstep : ∀ s, loopOK s LoopPoint.awaitFrame1 = true →
          loopOK s LoopPoint.awaitFrame2 = true := by decide
      exact hstep m.sstate (hlp ▸ hI.loop)
  | awaitFrame2 =>
      unfold onFrame2
      cases hpt : m.previousTime with
      | none => exact hI
      | some tp =>
          have hs3 : m.sstate = SState.running ∨ m.sstate = SState.pausing ∨
              m.sstate = SState.skipping := by
            have hres : ∀ s, loopOK s LoopPoint.awaitFrame2 = true →
                (s = SState.running ∨ s = SState.pausing ∨
                 s = SState.skipping) := by decide
            exact hres m.sstate (hlp ▸ hI.loop)
          simp only [publish, exitLoop, emit]
          split
          case isTrue hdone =>
            have hinterp := runFrame_done_interp m.n m.stiffness m.damping
              m.precision m.dtCfg m.targetValue m.physicsState
              m.remainingDelta (sampleDt m.maxDt m.dtCfg tp t) hdone
            have hallow : allowedPair m.sstate SState.idle = true := by
              rcases hs3 with h | h | h <;> rw [h] <;> decide
            refine ⟨head?_append_left hI.headLog,
              chain_append_one hI.chainLog (by rw [hI.lastLog]) hallow,
              List.getLast?_concat _, fun _ => ?_, fun _ => ?_, rfl,
              fun hc => (nomatch hc), fun hc => (nomatch hc)⟩
            · rw [hinterp]
              rfl
            · rw [hinterp]
              rfl
          case isFalse hdone =>
            rcases hs3 with h | h | h
            · simp only [loopTop, h]
              refine ⟨hI.headLog, hI.chainLog, ?_, fun hc => (nomatch hc),
                fun hc => (nomatch hc), rfl, fun hc => (nomatch hc),
                fun hc => (nomatch hc)⟩
              rw [hI.lastLog, h]
            · simp only [loopTop, h]
              by_cases hrp : m.resumePending = true
              · rw [if_pos hrp]
                refine ⟨head?_append_left hI.headLog,
                  chain_append_one hI.chainLog (by rw [hI.lastLog, h])
                    (by decide),
                  List.getLast?_concat _, fun hc => (nomatch hc),
                  fun hc => (nomatch hc), rfl, fun hc => (nomatch hc),
                  fun _ => hrp⟩
              · rw [if_neg hrp]
                refine ⟨head?_append_left (head?_append_left hI.headLog),
                  ?_, List.getLast?_concat _, fun hc => (nomatch hc),
                  fun hc => (nomatch hc), rfl, fun hc => (nomatch hc),
                  fun hc => (nomatch hc)⟩
                exact chain_append_one
                  (chain_append_one hI.chainLog (by rw [hI.lastLog, h])
                    (by decide))
                  (List.getLast?_concat _) (by decide)
            · simp only [loopTop, h, runSkipCase, exitLoop, publish, emit,
                skipToTarget]
              refine ⟨head?_append_left hI.headLog,
                chain_append_one hI.chainLog (by rw [hI.lastLog, h])
                  (by decide),
                List.getLast?_concat _, fun _ => rfl, fun _ => rfl, rfl,
                fun hc => (nomatch hc), fun hc => (nomatch hc)⟩

theorem inv_step (m : Model) (e : Event) (hI : Inv m) : Inv (step m e) := by
  cases e with
  | setTarget v => exact inv_onSetTarget m v hI
  | frame t => exact inv_onFrame m t hI
  | callPause => exact inv_onPause m hI
  | callResume => exact inv_onResume m hI
  | callSkip => exact inv_onSkip m hI
  | setStiffness q =>
      exact ⟨hI.headLog, hI.chainLog, hI.lastLog, hI.idleCur, hI.idleVel,
        hI.loop, hI.pausingPend, hI.pausedResume⟩
  | setDamping q =>
      exact ⟨hI.headLog, hI.chainLog, hI.lastLog, hI.idleCur, hI.idleVel,
        hI.loop, hI.pausingPend, hI.pausedResume⟩
  | setPrecision q =>
      exact ⟨hI.headLog, hI.chainLog, hI.lastLog, hI.idleCur, hI.idleVel,
        hI.loop, hI.pausingPend, hI.pausedResume⟩

theorem inv_steps (m : Model) (es : List Event) (hI : Inv m) :
    Inv (steps m es) := by
  induction es generalizing m with
  | nil => exact hI
  | cons e es ih => exact ih (step m e) (inv_step m e hI)

theorem inv_reachable (buf : List ℚ) (st da pr dt mx : ℚ) (m : Model)
    (h : Reachable buf st da pr dt mx m) : Inv m := by
  obtain ⟨es, rfl⟩ := h
  exact inv_steps _ es (inv_mkSpring buf st da pr dt mx)

theorem steps_append (m : Model) (es es2 : List Event) :
    steps m (es ++ es2) = steps (steps m es) es2 :=
  List.foldl_append step m es es2

theorem reachable_step (buf : List ℚ) (st da pr dt mx : ℚ) (m : Model)
    (h : Reachable buf st da pr dt mx m) (e : Event) :
    Reachable buf st da pr dt mx (step m e) := by
  obtain ⟨es, rfl⟩ := h
  exact ⟨es ++ [e], by rw [steps_append]; rfl⟩

theorem reachable_steps (buf : List ℚ) (st da pr dt mx : ℚ) (m : Model)
    (h : Reachable buf st da pr dt mx m) (es2 : List Event) :
    Reachable buf st da pr dt mx (steps m es2) := by
  obtain ⟨es, rfl⟩ := h
  exact ⟨es ++ es2, by rw [steps_append]⟩

/-- Projections that no loop-side helper ever mutates. -/
theorem exitLoop_target (m : Model) : (exitLoop m).targetValue = m.targetValue :=
  rfl

theorem runSkipCase_target (m : Model) :
    (runSkipCase m).targetValue = m.targetValue :=
  rfl

theorem loopTop_target (m : Model) : (loopTop m).targetValue = m.targetValue := by
  unfold loopTop
  cases m.sstate
  case idle => rfl
  case running => rfl
  case paused => rfl
  case skipping => rfl
  case pausing =>
    dsimp only
    split
    · rfl
    · rfl

/-- Only a target set changes the latched target buffer. -/
theorem target_step (m : Model) (e : Event) (he : isSetTarget e = false) :
    (step m e).targetValue = m.targetValue := by
  cases e with
  | setTarget v => simp [isSetTarget] at he
  | frame t =>
      show (onFrame m t).targetValue = m.targetValue
      unfold onFrame
      cases m.loopPoint with
      | none => rfl
      | awaitResume => rfl
      | awaitFrame1 => rfl
      | awaitFrame2 =>
          unfold onFrame2
          cases m.previousTime with
          | none => rfl
          | some tp =>
              dsimp only
              simp only [apply_ite Model.targetValue, loopTop_target,
                exitLoop_target, ite_self]
              rfl
  | callPause =>
      show (onPause m).targetValue = m.targetValue
      unfold onPause
      split
      · rfl
      · rfl
  | callResume =>
      show (onResume m).targetValue = m.targetValue
      unfold onResume
      split
      · dsimp only
        split
        · rfl
        · rfl
      · rfl
  | callSkip =>
      show (onSkip m).targetValue = m.targetValue
      unfold onSkip
      split
      · dsimp only
        simp only [apply_ite Model.targetValue, runSkipCase_target, ite_self]
        rfl
      · rfl
  | setStiffness q => rfl
  | setDamping q => rfl
  | setPrecision q => rfl

theorem target_steps (m : Model) (es : List Event)
    (he : es.all (fun e => !isSetTarget e) = true) :
    (steps m es).targetValue = m.targetValue := by
  induction es generalizing m with
  | nil => rfl
  | cons e es ih =>
      rw [List.all_cons, Bool.and_eq_true] at he
      show (steps (step m e) es).targetValue = m.targetValue
      rw [ih (step m e) he.2, target_step m e (by
        cases hb : isSetTarget e
        · rfl
        · rw [hb] at he
          exact absurd he.1 (by decide))]

/-! ### Componentwise access to the vector operations -/

theorem getD_add (a b : List ℚ) (i : ℕ) (ha : i < a.length)
    (hb : i < b.length) :
    (add a b).getD i 0 = a.getD i 0 + b.getD i 0 :=
  getD_zipWith _ a b i ha hb

theorem getD_sub (a b : List ℚ) (i : ℕ) (ha : i < a.length)
    (hb : i < b.length) :
    (sub a b).getD i 0 = a.getD i 0 - b.getD i 0 :=
  getD_zipWith _ a b i ha hb

theorem getD_scale (a : List ℚ) (k : ℚ) (i : ℕ) (ha : i < a.length) :
    (scale a k).getD i 0 = a.getD i 0 * k :=
  getD_map _ a i ha

/-! ### The adapter round trip (shared between claims) -/

theorem adapter_roundtrip (sh : Shape) (v : SpringValue)
    (hc : conforms sh v = true) (hnd : shapeKeysNodup sh = true) :
    float32ArrayToValue sh (valueToFloat32Array sh v) = v := by
  cases sh with
  | num =>
      cases v with
      | num x => rfl
      | arr xs => simp [conforms] at hc
      | obj fs => simp [conforms] at hc
  | arr n =>
      cases v with
      | num x => simp [conforms] at hc
      | arr xs =>
          have hlen : xs.length = n := by
            simpa [conforms] using hc
          subst hlen
          simp only [valueToFloat32Array, float32ArrayToValue,
            map_getD_range]
      | obj fs => simp [conforms] at hc
  | obj keys =>
      cases v with
      | num x => simp [conforms] at hc
      | arr xs => simp [conforms] at hc
      | obj fs =>
          have hk : fs.map Prod.fst = keys := by
            simpa [conforms] using hc
          subst hk
          have hnd2 : (fs.map Prod.fst).Nodup := by
            simpa [shapeKeysNodup] using hnd
          simp only [valueToFloat32Array, float32ArrayToValue,
            keys_map_recGet fs hnd2, zip_map_fst_snd]

/-! ### Sub-step loop arithmetic -/

theorem substepIter_remainingDt (S D dtC : ℚ) (tv : List ℚ) (k : ℕ)
    (s : SubLoopState) :
    (substepIter S D dtC tv k s).remainingDt = s.remainingDt - k * dtC := by
  induction k generalizing s with
  | zero => simp [substepIter]
  | succ j ih =>
      rw [substepIter, ih]
      show s.remainingDt - dtC - j * dtC = _
      push_cast
      ring

/-- After the fuel computed by substepCount the while-loop guard fails:
the remaining interval is no longer positive. -/
theorem substepCount_exhausts (r dtC : ℚ) (hdt : 0 < dtC) :
    r - (substepCount r dtC : ℚ) * dtC ≤ 0 := by
  unfold substepCount
  rw [if_pos hdt]
  have h1 : r / dtC ≤ ((⌈r / dtC⌉.toNat : ℤ) : ℚ) := by
    calc r / dtC ≤ (⌈r / dtC⌉ : ℚ) := Int.le_ceil _
      _ ≤ ((⌈r / dtC⌉.toNat : ℤ) : ℚ) := by
          exact_mod_cast Int.self_le_toNat _
  have h2 : r ≤ (⌈r / dtC⌉.toNat : ℚ) * dtC := by
    rw [div_le_iff₀ hdt] at h1
    push_cast at h1 ⊢
    linarith
  linarith

/-- Before each executed iteration the while-loop guard held: the fuel used
by the embedding runs exactly the iterations of the source loop. -/
theorem substepCount_guard (r dtC : ℚ) (hdt : 0 < dtC) (j : ℕ)
    (hj : j < substepCount r dtC) :
    0 < r - (j : ℚ) * dtC := by
  unfold substepCount at hj
  rw [if_pos hdt] at hj
  have hlt : ((j : ℤ)) < ⌈r / dtC⌉ := Int.lt_toNat.mp hj
  have hz : (j : ℤ) ≤ ⌈r / dtC⌉ - 1 := by omega
  have hjq : ((j : ℚ)) ≤ (⌈r / dtC⌉ : ℚ) - 1 := by
    exact_mod_cast hz
  have hceil : ((⌈r / dtC⌉ : ℤ) : ℚ) < r / dtC + 1 :=
    Int.ceil_lt_add_one (r / dtC)
  have h2 : ((j : ℚ)) < r / dtC := by linarith
  rw [lt_div_iff₀ hdt] at h2
  linarith

/-- For a positive consumed interval at least one sub-step runs. -/
theorem substepCount_pos (r dtC : ℚ) (hdt : 0 < dtC) (hr : 0 < r) :
    0 < substepCount r dtC := by
  unfold substepCount
  rw [if_pos hdt]
  have : (0 : ℤ) < ⌈r / dtC⌉ := Int.ceil_pos.mpr (div_pos hr hdt)
  omega

/-- The leftover interval after the loop stays above -dt when the consumed
interval was positive. -/
theorem substepCount_leftover (r dtC : ℚ) (hdt : 0 < dtC) (hr : 0 < r) :
    -dtC < r - (substepCount r dtC : ℚ) * dtC := by
  unfold substepCount
  rw [if_pos hdt]
  have hpos : (0 : ℤ) < ⌈r / dtC⌉ := Int.ceil_pos.mpr (div_pos hr hdt)
  have htn : ((⌈r / dtC⌉.toNat : ℤ) : ℚ) = ((⌈r / dtC⌉ : ℤ) : ℚ) := by
    exact_mod_cast congrArg (fun z : ℤ => (z : ℚ)) (Int.toNat_of_nonneg hpos.le)
  have hceil : ((⌈r / dtC⌉ : ℤ) : ℚ) < r / dtC + 1 := by
    exact_mod_cast Int.ceil_lt_add_one (r / dtC)
  have : ((⌈r / dtC⌉.toNat : ℤ) : ℚ) * dtC < (r / dtC + 1) * dtC := by
    rw [htn]
    exact mul_lt_mul_of_pos_right hceil hdt
  rw [div_add_one hdt.ne.symm, div_mul_cancel₀ _ hdt.ne.symm] at this
  push_cast at this ⊢
  linarith

theorem normSq_replicate_zero (k : ℕ) :
    normSq (List.replicate k 0) = 0 := by
  induction k with
  | zero => rfl
  | succ j ih =>
      rw [List.replicate_succ]
      show normSq (0 :: List.replicate j 0) = 0
      simp only [normSq, List.map_cons, List.sum_cons] at ih ⊢
      rw [ih]
      ring

/-- The frame ends the simulation exactly when the source stop condition
holds for the recorded delta and the current velocity. -/
theorem runFrame_done_iff (n : ℕ) (S D p dtC : ℚ) (tv : List ℚ)
    (phys : PhysicsState) (rd0 : List ℚ) (rdt : ℚ) :
    ((runFrame n S D p dtC tv phys rd0 rdt).done = true ↔
      stopCond p (frameSubloop S D dtC tv phys rd0 rdt).remainingDelta
        (frameSubloop S D dtC tv phys rd0 rdt).physicsState.velocity) := by
  unfold runFrame
  dsimp only
  split
  case isTrue h => simpa using h
  case isFalse h => simpa using h

/-! ## Claim theorems -/

/-- Claim C1: every sub-step executed by the run loop with step size h
performs the semi-implicit Euler update on the physics state, componentwise
and with unit mass: the velocity is updated first as
velocity + (stiffness * (target - value) - damping * velocity) * h, and the
value then uses the new velocity: value + velocity2 * h.  The stiffness and
damping parameters are the live values read at the time of the step. -/
theorem c1_integrator_substep (S D h : ℚ) (tv : List ℚ) (st : SubLoopState)
    (n i : ℕ) (hval : st.physicsState.value.length = n)
    (hvel : st.physicsState.velocity.length = n)
    (htv : tv.length = n) (hi : i < n) :
    (substepOnce S D h tv st).physicsState.velocity.getD i 0 =
      st.physicsState.velocity.getD i 0 +
        (S * (tv.getD i 0 - st.physicsState.value.getD i 0) -
          D * st.physicsState.velocity.getD i 0) * h ∧
    (substepOnce S D h tv st).physicsState.value.getD i 0 =
      st.physicsState.value.getD i 0 +
        (substepOnce S D h tv st).physicsState.velocity.getD i 0 * h := by
  have hi_val : i < st.physicsState.value.length := hval ▸ hi
  have hi_vel : i < st.physicsState.velocity.length := hvel ▸ hi
  have hi_tv : i < tv.length := htv ▸ hi
  have l_rd : (sub tv st.physicsState.value).length = n := by
    rw [length_sub, htv, hval, min_self]
  have l_ef : (scale (sub tv st.physicsState.value) S).length = n := by
    rw [length_scale, l_rd]
  have l_fr : (scale st.physicsState.velocity D).length = n := by
    rw [length_scale, hvel]
  have l_acc : (sub (scale (sub tv st.physicsState.value) S)
      (scale st.physicsState.velocity D)).length = n := by
    rw [length_sub, l_ef, l_fr, min_self]
  have l_dv : (scale (sub (scale (sub tv st.physicsState.value) S)
      (scale st.physicsState.velocity D)) h).length = n := by
    rw [length_scale, l_acc]
  have hVel : (substepOnce S D h tv st).physicsState.velocity.getD i 0 =
      ((tv.getD i 0 - st.physicsState.value.getD i 0) * S -
        st.physicsState.velocity.getD i 0 * D) * h +
        st.physicsState.velocity.getD i 0 := by
    show (add (scale (sub (scale (sub tv st.physicsState.value) S)
        (scale st.physicsState.velocity D)) h)
        st.physicsState.velocity).getD i 0 = _
    rw [getD_add _ _ i (by rw [l_dv]; exact hi) hi_vel,
      getD_scale _ _ i (by rw [l_acc]; exact hi),
      getD_sub _ _ i (by rw [l_ef]; exact hi) (by rw [l_fr]; exact hi),
      getD_scale _ _ i (by rw [l_rd]; exact hi),
      getD_scale _ _ i hi_vel,
      getD_sub _ _ i hi_tv hi_val]
  constructor
  · rw [hVel]
    ring
  · have hVal : (substepOnce S D h tv st).physicsState.value.getD i 0 =
        (substepOnce S D h tv st).physicsState.velocity.getD i 0 * h +
          st.physicsState.value.getD i 0 := by
      show (add (scale (add (scale (sub (scale (sub tv
          st.physicsState.value) S) (scale st.physicsState.velocity D)) h)
          st.physicsState.velocity) h) st.physicsState.value).getD i 0 = _
      rw [getD_add _ _ i (by
          rw [length_scale, length_add, l_dv, hvel, min_self]
          exact hi) hi_val,
        getD_scale _ _ i (by
          rw [length_add, l_dv, hvel, min_self]
          exact hi)]
      rfl
    rw [hVal]
    ring

/-- Witness for C1 at a concrete sub-step: scalar spring with stiffness
300, damping 30, step 1/300, target 1, starting at rest at 0. -/
theorem c1_integrator_substep_w :
    (substepOnce 300 30 (1/300) [1]
        (SubLoopState.mk [0] (PhysicsState.mk [0] [0])
          (PhysicsState.mk [0] [0]) (1/300))).physicsState.velocity.getD 0 0 =
      (PhysicsState.mk [0] [0]).velocity.getD 0 0 +
        (300 * (([1] : List ℚ).getD 0 0 -
          (PhysicsState.mk [0] [0]).value.getD 0 0) -
          30 * (PhysicsState.mk [0] [0]).velocity.getD 0 0) * (1/300) ∧
    (substepOnce 300 30 (1/300) [1]
        (SubLoopState.mk [0] (PhysicsState.mk [0] [0])
          (PhysicsState.mk [0] [0]) (1/300))).physicsState.value.getD 0 0 =
      (PhysicsState.mk [0] [0]).value.getD 0 0 +
        (substepOnce 300 30 (1/300) [1]
          (SubLoopState.mk [0] (PhysicsState.mk [0] [0])
            (PhysicsState.mk [0] [0]) (1/300))).physicsState.velocity.getD
          0 0 * (1/300) :=
  c1_integrator_substep 300 30 (1/300) [1]
    (SubLoopState.mk [0] (PhysicsState.mk [0] [0])
      (PhysicsState.mk [0] [0]) (1/300)) 1 0 rfl rfl rfl (by decide)

/-- Claim C8: for every value of each of the three supported shapes
(scalar number, array of numbers, flat record of numbers) that conforms to
the shape captured from the constructor value, converting it to the
internal numeric buffer via the shape adapter and converting the buffer
back yields exactly the original value. -/
theorem c8_adapter_roundtrip (sh : Shape) (v : SpringValue)
    (hc : conforms sh v = true) (hnd : shapeKeysNodup sh = true) :
    float32ArrayToValue sh (valueToFloat32Array sh v) = v :=
  adapter_roundtrip sh v hc hnd

/-- Witness for C8 on all three shapes, with the record shape using the
captured key order x, y. -/
theorem c8_adapter_roundtrip_w :
    float32ArrayToValue Shape.num (valueToFloat32Array Shape.num
      (SpringValue.num 13)) = SpringValue.num 13 ∧
    float32ArrayToValue (Shape.arr 3) (valueToFloat32Array (Shape.arr 3)
      (SpringValue.arr [43, 21, 5])) = SpringValue.arr [43, 21, 5] ∧
    float32ArrayToValue (Shape.obj ["x", "y"])
      (valueToFloat32Array (Shape.obj ["x", "y"])
        (SpringValue.obj [("x", 543), ("y", 23)])) =
      SpringValue.obj [("x", 543), ("y", 23)] :=
  ⟨c8_adapter_roundtrip Shape.num (SpringValue.num 13) rfl rfl,
   c8_adapter_roundtrip (Shape.arr 3) (SpringValue.arr [43, 21, 5])
     (by decide) rfl,
   c8_adapter_roundtrip (Shape.obj ["x", "y"])
     (SpringValue.obj [("x", 543), ("y", 23)]) (by decide) (by decide)⟩

theorem runSkipCase_pausePending (m : Model) :
    (runSkipCase m).pausePending = m.pausePending :=
  rfl

theorem runSkipCase_pauseLog (m : Model) :
    (runSkipCase m).pauseLog = m.pauseLog :=
  rfl

/-- Claim C10: assuming the frame scheduler never rejects (frame events in
the model always deliver a timestamp), whenever the state store holds idle
- initially and at the end of every run, whether by convergence or by skip
- the published velocity is componentwise zero, and the derived speed,
the square root of the sum of squares of the published velocity, is 0. -/
theorem c10_idle_velocity_zero (buf : List ℚ) (st da pr dt mx : ℚ)
    (es : List Event)
    (hidle : (steps (mkSpring buf st da pr dt mx) es).sstate = SState.idle) :
    (∀ x ∈ (steps (mkSpring buf st da pr dt mx) es).velocityPub, x = 0) ∧
    Real.sqrt (normSq
      (steps (mkSpring buf st da pr dt mx) es).velocityPub) = 0 := by
  have hI := inv_steps _ es (inv_mkSpring buf st da pr dt mx)
  have hv := hI.idleVel hidle
  constructor
  · intro x hx
    rw [hv] at hx
    exact List.eq_of_mem_replicate hx
  · rw [hv, normSq_replicate_zero, Rat.cast_zero, Real.sqrt_zero]

/-- Witness for C10 on a freshly constructed scalar store, which is idle. -/
theorem c10_idle_velocity_zero_w :
    (∀ x ∈ (steps (mkSpring [13] 300 30 (1/10) (1/300) (1/24))
      []).velocityPub, x = 0) ∧
    Real.sqrt (normSq (steps (mkSpring [13] 300 30 (1/10) (1/300) (1/24))
      []).velocityPub) = 0 :=
  c10_idle_velocity_zero [13] 300 30 (1/10) (1/300) (1/24) [] rfl

/-- Claim C4 (amended): in every run the state observers receive a sequence
of emissions that starts at idle and whose consecutive pairs are exactly
the transitions the loop can produce: idle to running; running to pausing,
skipping or idle; pausing to paused, skipping or idle; paused to running or
skipping; skipping to idle.  The sequence claimed by the spec, idle,
running, [pausing, paused, running]*, (skipping|nothing), idle, is
refuted by the counterexample: pausing can be followed directly by
skipping (and by idle), as the repository test suite itself asserts. -/
theorem c4_state_sequence_amended (buf : List ℚ) (st da pr dt mx : ℚ)
    (es : List Event) :
    (steps (mkSpring buf st da pr dt mx) es).stateLog.head? =
      some SState.idle ∧
    List.Chain' (fun a b => allowedPair a b = true)
      (steps (mkSpring buf st da pr dt mx) es).stateLog := by
  have hI := inv_steps _ es (inv_mkSpring buf st da pr dt mx)
  exact ⟨hI.headLog, hI.chainLog⟩

/-- Claim C3: for every supported value shape and configuration, after a
conforming target different from the published value is set, once the
store next reports idle with no further target set in between, the
published current value converted back to the public shape is exactly the
target value that was set. -/
theorem c3_idle_reaches_target (buf : List ℚ) (st da pr dt mx : ℚ)
    (m : Model) (hr : Reachable buf st da pr dt mx m)
    (sh : Shape) (v : SpringValue) (hc : conforms sh v = true)
    (hnd : shapeKeysNodup sh = true)
    (hdiff : valueToFloat32Array sh v ≠ m.currentPub)
    (es : List Event) (hes : es.all (fun e => !isSetTarget e) = true)
    (hidle : (steps (step m (Event.setTarget (valueToFloat32Array sh v)))
      es).sstate = SState.idle) :
    float32ArrayToValue sh (steps (step m (Event.setTarget
      (valueToFloat32Array sh v))) es).currentPub = v := by
  have hreach2 : Reachable buf st da pr dt mx
      (steps (step m (Event.setTarget (valueToFloat32Array sh v))) es) :=
    reachable_steps buf st da pr dt mx _
      (reachable_step buf st da pr dt mx m hr _) es
  have hI := inv_reachable buf st da pr dt mx _ hreach2
  have hcur := hI.idleCur hidle
  have htgt : (steps (step m (Event.setTarget (valueToFloat32Array sh v)))
      es).targetValue = valueToFloat32Array sh v := by
    rw [target_steps _ es hes]
    show (onSetTarget m _).targetValue = _
    unfold onSetTarget
    dsimp only
    split
    · rfl
    · rfl
  rw [hcur, htgt]
  exact adapter_roundtrip sh v hc hnd

/-- Claim C5: if skip() arrives while a pause is pending (the store is
pausing, or paused while the pause promise has not settled), the pending
pause() promise is rejected with the skip error, and whenever the run then
reaches idle with no further target set, the published current value equals
the latched target: skip always wins a race with pause. -/
theorem c5_skip_wins_pause (buf : List ℚ) (st da pr dt mx : ℚ) (m : Model)
    (hr : Reachable buf st da pr dt mx m) (hpp : m.pausePending = true)
    (hst : m.sstate = SState.pausing ∨ m.sstate = SState.paused) :
    (step m Event.callSkip).pauseLog =
      m.pauseLog ++ [PauseOutcome.rejected SpringError.skipErr] ∧
    ∀ es, es.all (fun e => !isSetTarget e) = true →
      (steps (step m Event.callSkip) es).sstate = SState.idle →
      (steps (step m Event.callSkip) es).currentPub = m.targetValue := by
  constructor
  · show (onSkip m).pauseLog = _
    unfold onSkip
    rw [if_pos (by
      rcases hst with h | h
      · exact Or.inr (Or.inl h)
      · exact Or.inr (Or.inr h))]
    simp only [emit]
    by_cases hrp : m.resumePending = true
    · rw [if_pos hrp]
      by_cases hlp : m.loopPoint = LoopPoint.awaitResume
      · rw [if_pos hlp]
        simp [runSkipCase_pausePending, runSkipCase_pauseLog, hpp]
      · rw [if_neg hlp]
        simp [hpp]
    · rw [if_neg hrp]
      simp [hpp]
  · intro es hes hidle
    have hreach2 : Reachable buf st da pr dt mx
        (steps (step m Event.callSkip) es) :=
      reachable_steps buf st da pr dt mx _
        (reachable_step buf st da pr dt mx m hr _) es
    have hI := inv_reachable buf st da pr dt mx _ hreach2
    have hcur := hI.idleCur hidle
    rw [hcur, target_steps _ es hes, target_step m Event.callSkip rfl]

theorem runFrame_done_phys (n : ℕ) (S D p dtC : ℚ) (tv : List ℚ)
    (phys : PhysicsState) (rd0 : List ℚ) (rdt : ℚ)
    (h : (runFrame n S D p dtC tv phys rd0 rdt).done = true) :
    (runFrame n S D p dtC tv phys rd0 rdt).physicsState =
      skipToTarget n tv := by
  unfold runFrame
  dsimp only
  split
  case isTrue => rfl
  case isFalse hc =>
    unfold runFrame at h
    dsimp only at h
    rw [if_neg hc] at h
    simp at h

theorem runFrame_ratio (n : ℕ) (S D p dtC : ℚ) (tv : List ℚ)
    (phys : PhysicsState) (rd0 : List ℚ) (rdt : ℚ) :
    (runFrame n S D p dtC tv phys rd0 rdt).ratio =
      1 + (frameSubloop S D dtC tv phys rd0 rdt).remainingDt / dtC := by
  unfold runFrame
  dsimp only
  split
  · rfl
  · rfl

theorem runFrame_not_done_interp (n : ℕ) (S D p dtC : ℚ) (tv : List ℚ)
    (phys : PhysicsState) (rd0 : List ℚ) (rdt : ℚ)
    (h : ¬ stopCond p (frameSubloop S D dtC tv phys rd0 rdt).remainingDelta
      (frameSubloop S D dtC tv phys rd0 rdt).physicsState.velocity) :
    (runFrame n S D p dtC tv phys rd0 rdt).interpolated =
      PhysicsState.mk
        (add (scale (frameSubloop S D dtC tv phys rd0
            rdt).physicsState.velocity
            (1 + (frameSubloop S D dtC tv phys rd0 rdt).remainingDt / dtC))
          (scale (frameSubloop S D dtC tv phys rd0
            rdt).previousState.velocity
            (1 - (1 + (frameSubloop S D dtC tv phys rd0
              rdt).remainingDt / dtC))))
        (add (scale (frameSubloop S D dtC tv phys rd0 rdt).physicsState.value
            (1 + (frameSubloop S D dtC tv phys rd0 rdt).remainingDt / dtC))
          (scale (frameSubloop S D dtC tv phys rd0 rdt).previousState.value
            (1 - (1 + (frameSubloop S D dtC tv phys rd0
              rdt).remainingDt / dtC)))) := by
  unfold runFrame
  dsimp only
  rw [if_neg h]

/-- Claim C2 (amended): a frame processed in the running state ends the run
exactly when the source stop condition holds, namely when no component of
the recorded remainingDelta (the target minus the physics value at the
start of the last executed sub-step, one sub-step stale) and no component
of the current physics velocity reaches precision in absolute value; when
it holds, the physics state and the published state are snapped exactly to
the target before the state becomes idle.  The frozen claim, which reads
the displacement from the current physics value, is refuted by the
counterexample. -/
theorem c2_stop_condition_amended (m : Model) (t tp : ℚ)
    (hs : m.sstate = SState.running)
    (hlp : m.loopPoint = LoopPoint.awaitFrame2)
    (hpt : m.previousTime = some tp) :
    ((step m (Event.frame t)).sstate = SState.idle ↔
      stopCond m.precision
        (frameSubloop m.stiffness m.damping m.dtCfg m.targetValue
          m.physicsState m.remainingDelta
          (sampleDt m.maxDt m.dtCfg tp t)).remainingDelta
        (frameSubloop m.stiffness m.damping m.dtCfg m.targetValue
          m.physicsState m.remainingDelta
          (sampleDt m.maxDt m.dtCfg tp t)).physicsState.velocity) ∧
    (stopCond m.precision
        (frameSubloop m.stiffness m.damping m.dtCfg m.targetValue
          m.physicsState m.remainingDelta
          (sampleDt m.maxDt m.dtCfg tp t)).remainingDelta
        (frameSubloop m.stiffness m.damping m.dtCfg m.targetValue
          m.physicsState m.remainingDelta
          (sampleDt m.maxDt m.dtCfg tp t)).physicsState.velocity →
      (step m (Event.frame t)).physicsState = skipToTarget m.n m.targetValue ∧
      (step m (Event.frame t)).currentPub = m.targetValue ∧
      (step m (Event.frame t)).velocityPub = List.replicate m.n 0) := by
  have hstep : step m (Event.frame t) = onFrame2 m t := by
    show onFrame m t = onFrame2 m t
    unfold onFrame
    rw [hlp]
  rw [hstep]
  unfold onFrame2
  rw [hpt]
  dsimp only
  have hiff := runFrame_done_iff m.n m.stiffness m.damping m.precision
    m.dtCfg m.targetValue m.physicsState m.remainingDelta
    (sampleDt m.maxDt m.dtCfg tp t)
  by_cases hc : stopCond m.precision
      (frameSubloop m.stiffness m.damping m.dtCfg m.targetValue
        m.physicsState m.remainingDelta
        (sampleDt m.maxDt m.dtCfg tp t)).remainingDelta
      (frameSubloop m.stiffness m.damping m.dtCfg m.targetValue
        m.physicsState m.remainingDelta
        (sampleDt m.maxDt m.dtCfg tp t)).physicsState.velocity
  · have hdone := hiff.mpr hc
    rw [if_pos hdone]
    have hphys := runFrame_done_phys m.n m.stiffness m.damping m.precision
      m.dtCfg m.targetValue m.physicsState m.remainingDelta
      (sampleDt m.maxDt m.dtCfg tp t) hdone
    have hinterp := runFrame_done_interp m.n m.stiffness m.damping
      m.precision m.dtCfg m.targetValue m.physicsState m.remainingDelta
      (sampleDt m.maxDt m.dtCfg tp t) hdone
    refine ⟨⟨fun _ => hc, fun _ => rfl⟩, fun _ => ⟨?_, ?_, ?_⟩⟩
    · show (runFrame m.n m.stiffness m.damping m.precision m.dtCfg
        m.targetValue m.physicsState m.remainingDelta
        (sampleDt m.maxDt m.dtCfg tp t)).physicsState = _
      rw [hphys]
    · show (runFrame m.n m.stiffness m.damping m.precision m.dtCfg
        m.targetValue m.physicsState m.remainingDelta
        (sampleDt m.maxDt m.dtCfg tp t)).interpolated.value = _
      rw [hinterp]
      rfl
    · show (runFrame m.n m.stiffness m.damping m.precision m.dtCfg
        m.targetValue m.physicsState m.remainingDelta
        (sampleDt m.maxDt m.dtCfg tp t)).interpolated.velocity = _
      rw [hinterp]
      rfl
  · have hdone : ¬(runFrame m.n m.stiffness m.damping m.precision m.dtCfg
        m.targetValue m.physicsState m.remainingDelta
        (sampleDt m.maxDt m.dtCfg tp t)).done = true := fun hd =>
      hc (hiff.mp hd)
    rw [if_neg hdone]
    refine ⟨⟨fun hidle => absurd hidle ?_, fun hcc => absurd hcc hc⟩,
      fun hcc => absurd hcc hc⟩
    intro hidle
    have : (loopTop (publish { m with
        physicsState := (runFrame m.n m.stiffness m.damping m.precision
          m.dtCfg m.targetValue m.physicsState m.remainingDelta
          (sampleDt m.maxDt m.dtCfg tp t)).physicsState
        interpolated := (runFrame m.n m.stiffness m.damping m.precision
          m.dtCfg m.targetValue m.physicsState m.remainingDelta
          (sampleDt m.maxDt m.dtCfg tp t)).interpolated
        remainingDelta := (runFrame m.n m.stiffness m.damping m.precision
          m.dtCfg m.targetValue m.physicsState m.remainingDelta
          (sampleDt m.maxDt m.dtCfg tp t)).remainingDelta
        previousTime := Option.some t })).sstate = SState.running := by
      unfold loopTop
      simp only [publish, hs]
    rw [hidle] at this
    exact absurd this (by decide)

theorem substepIter_zero (S D dtC : ℚ) (tv : List ℚ) (s : SubLoopState) :
    substepIter S D dtC tv 0 s = s :=
  rfl

theorem substepIter_one (S D dtC : ℚ) (tv : List ℚ) (s : SubLoopState) :
    substepIter S D dtC tv 1 s = substepOnce S D dtC tv s :=
  rfl

theorem stopCond_singleton (p a b : ℚ) :
    stopCond p [a] [b] ↔ ¬(p ≤ |a| ∨ p ≤ |b|) := by
  simp [stopCond]

theorem awaitFrame1_ne_awaitResume :
    (LoopPoint.awaitFrame1 = LoopPoint.awaitResume) ↔ False :=
  iff_false_intro (fun h => nomatch h)

theorem awaitFrame2_ne_awaitResume :
    (LoopPoint.awaitFrame2 = LoopPoint.awaitResume) ↔ False :=
  iff_false_intro (fun h => nomatch h)

theorem skipping_ne_idle :
    (SState.skipping = SState.idle) ↔ False :=
  iff_false_intro (fun h => nomatch h)

theorem running_ne_idle :
    (SState.running = SState.idle) ↔ False :=
  iff_false_intro (fun h => nomatch h)

theorem pausing_ne_idle :
    (SState.pausing = SState.idle) ↔ False :=
  iff_false_intro (fun h => nomatch h)

theorem skipping_ne_running :
    (SState.skipping = SState.running) ↔ False :=
  iff_false_intro (fun h => nomatch h)

theorem pausing_ne_running :
    (SState.pausing = SState.running) ↔ False :=
  iff_false_intro (fun h => nomatch h)

/-- Counterexample to C4 as frozen: the exact scenario of the repository
test "calls pause() and skip() almost at the same time" produces the
emission sequence idle, running, pausing, skipping, idle, in which pausing
is followed directly by skipping; that sequence is not generated by the
grammar idle, running, [pausing, paused, running]*, (skipping|nothing),
idle that the claim asserts. -/
theorem c4_state_sequence_cex :
    (steps (mkSpring [0] 1 0 1 1 1) [Event.setTarget [1], Event.callPause,
      Event.callSkip, Event.frame 0, Event.frame 0]).stateLog =
      [SState.idle, SState.running, SState.pausing, SState.skipping,
        SState.idle] ∧
    specEpisode [SState.idle, SState.running, SState.pausing,
      SState.skipping, SState.idle] = false := by
  constructor
  · norm_num [steps, step, onSetTarget, onPause, onSkip, onFrame, onFrame2,
      runFrame, frameSubloop, substepCount, substepIter_zero, substepIter_one,
      substepOnce, integrate, sampleDt, stopCond_singleton, skipToTarget,
      loopTop, runSkipCase, exitLoop, publish, emit, mkSpring, add, sub,
      scale, List.foldl_cons, List.foldl_nil, awaitFrame1_ne_awaitResume,
      awaitFrame2_ne_awaitResume, skipping_ne_idle, running_ne_idle,
      pausing_ne_idle, skipping_ne_running, pausing_ne_running,
      abs_of_nonneg]
  · rfl

/-- Counterexample to C2 as frozen: with stiffness 1/2, damping 0,
precision 1/10, step size 1 and target 1/10 from rest at 0, one sub-step
leaves the physics state at value 1/20 and velocity 1/20.  Every component
of target minus the CURRENT physics value (1/20) and of the velocity
(1/20) is below the precision 1/10, so the claim requires termination; but
the loop is still running, because the source checks the recorded
remainingDelta 1/10, the displacement at the start of the last sub-step,
which reaches the threshold. -/
theorem c2_stop_condition_cex :
    (steps (mkSpring [0] (1/2) 0 (1/10) 1 1)
      [Event.setTarget [1/10], Event.frame 0, Event.frame 0]).targetValue =
      [1/10] ∧
    (steps (mkSpring [0] (1/2) 0 (1/10) 1 1)
      [Event.setTarget [1/10], Event.frame 0,
        Event.frame 0]).physicsState.value = [1/20] ∧
    (steps (mkSpring [0] (1/2) 0 (1/10) 1 1)
      [Event.setTarget [1/10], Event.frame 0,
        Event.frame 0]).physicsState.velocity = [1/20] ∧
    (steps (mkSpring [0] (1/2) 0 (1/10) 1 1)
      [Event.setTarget [1/10], Event.frame 0, Event.frame 0]).precision =
      1/10 ∧
    stopCond
      (steps (mkSpring [0] (1/2) 0 (1/10) 1 1)
        [Event.setTarget [1/10], Event.frame 0, Event.frame 0]).precision
      (sub (steps (mkSpring [0] (1/2) 0 (1/10) 1 1)
          [Event.setTarget [1/10], Event.frame 0,
            Event.frame 0]).targetValue
        (steps (mkSpring [0] (1/2) 0 (1/10) 1 1)
          [Event.setTarget [1/10], Event.frame 0,
            Event.frame 0]).physicsState.value)
      (steps (mkSpring [0] (1/2) 0 (1/10) 1 1)
        [Event.setTarget [1/10], Event.frame 0,
          Event.frame 0]).physicsState.velocity ∧
    (steps (mkSpring [0] (1/2) 0 (1/10) 1 1)
      [Event.setTarget [1/10], Event.frame 0, Event.frame 0]).sstate =
      SState.running := by
  norm_num [steps, step, onSetTarget, onPause, onSkip, onFrame, onFrame2,
      runFrame, frameSubloop, substepCount, substepIter_zero, substepIter_one,
      substepOnce, integrate, sampleDt, stopCond_singleton, skipToTarget,
      loopTop, runSkipCase, exitLoop, publish, emit, mkSpring, add, sub,
      scale, List.foldl_cons, List.foldl_nil, awaitFrame1_ne_awaitResume,
      awaitFrame2_ne_awaitResume, skipping_ne_idle, running_ne_idle,
      pausing_ne_idle, skipping_ne_running, pausing_ne_running,
      abs_of_nonneg, stopCond]

/-- Witness for the amended C2 on a live frame of a scalar run. -/
theorem c2_stop_condition_amended_w :
    ((step (steps (mkSpring [0] 300 30 (1/10) (1/300) (1/24))
        [Event.setTarget [1], Event.frame 0]) (Event.frame 0)).sstate =
      SState.idle ↔
      stopCond (steps (mkSpring [0] 300 30 (1/10) (1/300) (1/24))
          [Event.setTarget [1], Event.frame 0]).precision
        (frameSubloop (steps (mkSpring [0] 300 30 (1/10) (1/300) (1/24))
            [Event.setTarget [1], Event.frame 0]).stiffness
          (steps (mkSpring [0] 300 30 (1/10) (1/300) (1/24))
            [Event.setTarget [1], Event.frame 0]).damping
          (steps (mkSpring [0] 300 30 (1/10) (1/300) (1/24))
            [Event.setTarget [1], Event.frame 0]).dtCfg
          (steps (mkSpring [0] 300 30 (1/10) (1/300) (1/24))
            [Event.setTarget [1], Event.frame 0]).targetValue
          (steps (mkSpring [0] 300 30 (1/10) (1/300) (1/24))
            [Event.setTarget [1], Event.frame 0]).physicsState
          (steps (mkSpring [0] 300 30 (1/10) (1/300) (1/24))
            [Event.setTarget [1], Event.frame 0]).remainingDelta
          (sampleDt (steps (mkSpring [0] 300 30 (1/10) (1/300) (1/24))
              [Event.setTarget [1], Event.frame 0]).maxDt
            (steps (mkSpring [0] 300 30 (1/10) (1/300) (1/24))
              [Event.setTarget [1], Event.frame 0]).dtCfg 0
            0)).remainingDelta
        (frameSubloop (steps (mkSpring [0] 300 30 (1/10) (1/300) (1/24))
            [Event.setTarget [1], Event.frame 0]).stiffness
          (steps (mkSpring [0] 300 30 (1/10) (1/300) (1/24))
            [Event.setTarget [1], Event.frame 0]).damping
          (steps (mkSpring [0] 300 30 (1/10) (1/300) (1/24))
            [Event.setTarget [1], Event.frame 0]).dtCfg
          (steps (mkSpring [0] 300 30 (1/10) (1/300) (1/24))
            [Event.setTarget [1], Event.frame 0]).targetValue
          (steps (mkSpring [0] 300 30 (1/10) (1/300) (1/24))
            [Event.setTarget [1], Event.frame 0]).physicsState
          (steps (mkSpring [0] 300 30 (1/10) (1/300) (1/24))
            [Event.setTarget [1], Event.frame 0]).remainingDelta
          (sampleDt (steps (mkSpring [0] 300 30 (1/10) (1/300) (1/24))
              [Event.setTarget [1], Event.frame 0]).maxDt
            (steps (mkSpring [0] 300 30 (1/10) (1/300) (1/24))
              [Event.setTarget [1], Event.frame 0]).dtCfg 0
            0)).physicsState.velocity) ∧
    (stopCond (steps (mkSpring [0] 300 30 (1/10) (1/300) (1/24))
          [Event.setTarget [1], Event.frame 0]).precision
        (frameSubloop (steps (mkSpring [0] 300 30 (1/10) (1/300) (1/24))
            [Event.setTarget [1], Event.frame 0]).stiffness
          (steps (mkSpring [0] 300 30 (1/10) (1/300) (1/24))
            [Event.setTarget [1], Event.frame 0]).damping
          (steps (mkSpring [0] 300 30 (1/10) (1/300) (1/24))
            [Event.setTarget [1], Event.frame 0]).dtCfg
          (steps (mkSpring [0] 300 30 (1/10) (1/300) (1/24))
            [Event.setTarget [1], Event.frame 0]).targetValue
          (steps (mkSpring [0] 300 30 (1/10) (1/300) (1/24))
            [Event.setTarget [1], Event.frame 0]).physicsState
          (steps (mkSpring [0] 300 30 (1/10) (1/300) (1/24))
            [Event.setTarget [1], Event.frame 0]).remainingDelta
          (sampleDt (steps (mkSpring [0] 300 30 (1/10) (1/300) (1/24))
              [Event.setTarget [1], Event.frame 0]).maxDt
            (steps (mkSpring [0] 300 30 (1/10) (1/300) (1/24))
              [Event.setTarget [1], Event.frame 0]).dtCfg 0
            0)).remainingDelta
        (frameSubloop (steps (mkSpring [0] 300 30 (1/10) (1/300) (1/24))
            [Event.setTarget [1], Event.frame 0]).stiffness
          (steps (mkSpring [0] 300 30 (1/10) (1/300) (1/24))
            [Event.setTarget [1], Event.frame 0]).damping
          (steps (mkSpring [0] 300 30 (1/10) (1/300) (1/24))
            [Event.setTarget [1], Event.frame 0]).dtCfg
          (steps (mkSpring [0] 300 30 (1/10) (1/300) (1/24))
            [Event.setTarget [1], Event.frame 0]).targetValue
          (steps (mkSpring [0] 300 30 (1/10) (1/300) (1/24))
            [Event.setTarget [1], Event.frame 0]).physicsState
          (steps (mkSpring [0] 300 30 (1/10) (1/300) (1/24))
            [Event.setTarget [1], Event.frame 0]).remainingDelta
          (sampleDt (steps (mkSpring [0] 300 30 (1/10) (1/300) (1/24))
              [Event.setTarget [1], Event.frame 0]).maxDt
            (steps (mkSpring [0] 300 30 (1/10) (1/300) (1/24))
              [Event.setTarget [1], Event.frame 0]).dtCfg 0
            0)).physicsState.velocity →
      (step (steps (mkSpring [0] 300 30 (1/10) (1/300) (1/24))
          [Event.setTarget [1], Event.frame 0])
          (Event.frame 0)).physicsState =
        skipToTarget (steps (mkSpring [0] 300 30 (1/10) (1/300) (1/24))
          [Event.setTarget [1], Event.frame 0]).n
          (steps (mkSpring [0] 300 30 (1/10) (1/300) (1/24))
            [Event.setTarget [1], Event.frame 0]).targetValue ∧
      (step (steps (mkSpring [0] 300 30 (1/10) (1/300) (1/24))
          [Event.setTarget [1], Event.frame 0])
          (Event.frame 0)).currentPub =
        (steps (mkSpring [0] 300 30 (1/10) (1/300) (1/24))
          [Event.setTarget [1], Event.frame 0]).targetValue ∧
      (step (steps (mkSpring [0] 300 30 (1/10) (1/300) (1/24))
          [Event.setTarget [1], Event.frame 0])
          (Event.frame 0)).velocityPub =
        List.replicate (steps (mkSpring [0] 300 30 (1/10) (1/300) (1/24))
          [Event.setTarget [1], Event.frame 0]).n 0) :=
  c2_stop_condition_amended
    (steps (mkSpring [0] 300 30 (1/10) (1/300) (1/24))
      [Event.setTarget [1], Event.frame 0]) 0 0 rfl rfl rfl

/-- Witness for C5: a scalar store is paused mid-frame (state pausing) and
skip() is invoked; the pause promise is rejected with the skip error, and
after two further frames the run has ended on the target. -/
theorem c5_skip_wins_pause_w :
    (step (steps (mkSpring [0] 300 30 (1/10) 1 1)
      [Event.setTarget [1], Event.callPause]) Event.callSkip).pauseLog =
      [PauseOutcome.rejected SpringError.skipErr] ∧
    ((steps (step (steps (mkSpring [0] 300 30 (1/10) 1 1)
        [Event.setTarget [1], Event.callPause]) Event.callSkip)
        [Event.frame 0, Event.frame 0]).sstate = SState.idle →
      (steps (step (steps (mkSpring [0] 300 30 (1/10) 1 1)
        [Event.setTarget [1], Event.callPause]) Event.callSkip)
        [Event.frame 0, Event.frame 0]).currentPub = [1]) := by
  have h := c5_skip_wins_pause [0] 300 30 (1/10) 1 1
    (steps (mkSpring [0] 300 30 (1/10) 1 1)
      [Event.setTarget [1], Event.callPause])
    ⟨[Event.setTarget [1], Event.callPause], rfl⟩ rfl (Or.inl rfl)
  exact ⟨h.1, fun hidle => h.2 [Event.frame 0, Event.frame 0] rfl hidle⟩

/-- Witness for C3: a scalar store from 0 with target 1 is skipped and,
two frames later, the run is idle and publishes exactly the target. -/
theorem c3_idle_reaches_target_w :
    float32ArrayToValue Shape.num (steps (step
      (mkSpring [0] 300 30 (1/10) 1 1)
      (Event.setTarget (valueToFloat32Array Shape.num (SpringValue.num 1))))
      [Event.callSkip, Event.frame 0, Event.frame 0]).currentPub =
      SpringValue.num 1 :=
  c3_idle_reaches_target [0] 300 30 (1/10) 1 1
    (mkSpring [0] 300 30 (1/10) 1 1) ⟨[], rfl⟩ Shape.num (SpringValue.num 1)
    rfl rfl
    (by norm_num [valueToFloat32Array, mkSpring])
    [Event.callSkip, Event.frame 0, Event.frame 0] rfl
    (by norm_num [valueToFloat32Array, steps, step, onSetTarget, onPause, onSkip, onFrame, onFrame2,
      runFrame, frameSubloop, substepCount, substepIter_zero, substepIter_one,
      substepOnce, integrate, sampleDt, stopCond_singleton, skipToTarget,
      loopTop, runSkipCase, exitLoop, publish, emit, mkSpring, add, sub,
      scale, List.foldl_cons, List.foldl_nil, awaitFrame1_ne_awaitResume,
      awaitFrame2_ne_awaitResume, skipping_ne_idle, running_ne_idle,
      pausing_ne_idle, skipping_ne_running, pausing_ne_running,
      abs_of_nonneg])

/-- The out-of-order sample consumed by the run loop after timestamps 1000
then 0: the raw difference is -1 second, which JavaScript || does not
replace. -/
theorem sampleDt_out_of_order : sampleDt (1/24) (1/300) 1000 0 = -1 := by
  unfold sampleDt
  rw [if_neg (by norm_num : ¬(((0 : ℚ) - 1000) / 1000 = 0))]
  rw [show ((0 : ℚ) - 1000) / 1000 = -1 by norm_num]
  exact min_eq_right (by norm_num)

/-- Counterexample to C6 as frozen: after frame timestamps 1000 then 0 the
raw sample is -1, which is non-positive, yet the consumed interval is -1
and not the claimed fallback min maxFrameInterval stepSize = 1/300:
JavaScript || only replaces an exact zero (or NaN), not a negative
sample. -/
theorem c6_sample_fallback_cex :
    ((0 : ℚ) - 1000) / 1000 = -1 ∧
    (steps (mkSpring [0] 300 30 (1/10) (1/300) (1/24))
      [Event.setTarget [1], Event.frame 1000]).previousTime = some 1000 ∧
    (steps (mkSpring [0] 300 30 (1/10) (1/300) (1/24))
      [Event.setTarget [1], Event.frame 1000]).loopPoint =
      LoopPoint.awaitFrame2 ∧
    sampleDt (1/24) (1/300) 1000 0 = -1 ∧
    ¬(sampleDt (1/24) (1/300) 1000 0 = min (1/24) (1/300)) := by
  refine ⟨by norm_num, rfl, rfl, sampleDt_out_of_order, ?_⟩
  rw [sampleDt_out_of_order, min_eq_right (by norm_num : (1/300 : ℚ) ≤ 1/24)]
  norm_num

/-- Claim C6 (amended): the sampled interval falls back to stepSize exactly
when the raw sample is zero; a nonzero (in particular negative) sample
passes through, subject only to the upper cap at maxFrameInterval, so a
negative sample is consumed as-is. -/
theorem c6_sample_fallback_amended (maxDt dtC tp tc : ℚ)
    (hmax : 0 < maxDt) :
    ((tc - tp) / 1000 = 0 → sampleDt maxDt dtC tp tc = min maxDt dtC) ∧
    ((tc - tp) / 1000 ≠ 0 →
      sampleDt maxDt dtC tp tc = min maxDt ((tc - tp) / 1000)) ∧
    ((tc - tp) / 1000 < 0 → sampleDt maxDt dtC tp tc = (tc - tp) / 1000) := by
  refine ⟨fun h => ?_, fun h => ?_, fun h => ?_⟩
  · unfold sampleDt
    rw [if_pos h]
  · unfold sampleDt
    rw [if_neg h]
  · unfold sampleDt
    rw [if_neg h.ne]
    exact min_eq_right (le_of_lt (lt_trans h hmax))

/-- Witness for the amended C6 at the default configuration and the
out-of-order timestamps 1000 then 0. -/
theorem c6_sample_fallback_amended_w :
    (((0 : ℚ) - 1000) / 1000 = 0 →
      sampleDt (1/24) (1/300) 1000 0 = min (1/24) (1/300)) ∧
    (((0 : ℚ) - 1000) / 1000 ≠ 0 →
      sampleDt (1/24) (1/300) 1000 0 = min (1/24) (((0 : ℚ) - 1000) / 1000)) ∧
    (((0 : ℚ) - 1000) / 1000 < 0 →
      sampleDt (1/24) (1/300) 1000 0 = ((0 : ℚ) - 1000) / 1000) :=
  c6_sample_fallback_amended (1/24) (1/300) 1000 0 (by norm_num)

theorem substepOnce_lengths (S D dtC : ℚ) (tv : List ℚ) (n : ℕ)
    (htv : tv.length = n) (s : SubLoopState)
    (h1 : s.physicsState.value.length = n)
    (h2 : s.physicsState.velocity.length = n) :
    (substepOnce S D dtC tv s).physicsState.value.length = n ∧
    (substepOnce S D dtC tv s).physicsState.velocity.length = n ∧
    (substepOnce S D dtC tv s).previousState = s.physicsState := by
  refine ⟨?_, ?_, rfl⟩
  · simp only [substepOnce, integrate, length_add, length_scale, length_sub,
      htv, h1, h2, min_self]
  · simp only [substepOnce, integrate, length_add, length_scale, length_sub,
      htv, h1, h2, min_self]

theorem substepIter_lengths (S D dtC : ℚ) (tv : List ℚ) (n : ℕ)
    (htv : tv.length = n) (k : ℕ) (s : SubLoopState)
    (h1 : s.physicsState.value.length = n)
    (h2 : s.physicsState.velocity.length = n)
    (h3 : s.previousState.value.length = n)
    (h4 : s.previousState.velocity.length = n) :
    (substepIter S D dtC tv k s).physicsState.value.length = n ∧
    (substepIter S D dtC tv k s).physicsState.velocity.length = n ∧
    (substepIter S D dtC tv k s).previousState.value.length = n ∧
    (substepIter S D dtC tv k s).previousState.velocity.length = n := by
  induction k generalizing s with
  | zero => exact ⟨h1, h2, h3, h4⟩
  | succ j ih =>
      obtain ⟨o1, o2, o3⟩ := substepOnce_lengths S D dtC tv n htv s h1 h2
      exact ih (substepOnce S D dtC tv s) o1 o2 (by rw [o3]; exact h1)
        (by rw [o3]; exact h2)

theorem frameSubloop_remainingDt (S D dtC : ℚ) (tv : List ℚ)
    (phys : PhysicsState) (rd0 : List ℚ) (rdt : ℚ) :
    (frameSubloop S D dtC tv phys rd0 rdt).remainingDt =
      rdt - (substepCount rdt dtC : ℚ) * dtC := by
  unfold frameSubloop
  rw [substepIter_remainingDt]

theorem frameSubloop_lengths (S D dtC : ℚ) (tv : List ℚ)
    (phys : PhysicsState) (rd0 : List ℚ) (rdt : ℚ) (n : ℕ)
    (htv : tv.length = n) (hval : phys.value.length = n)
    (hvel : phys.velocity.length = n) :
    (frameSubloop S D dtC tv phys rd0 rdt).physicsState.value.length = n ∧
    (frameSubloop S D dtC tv phys rd0 rdt).physicsState.velocity.length
      = n ∧
    (frameSubloop S D dtC tv phys rd0 rdt).previousState.value.length = n ∧
    (frameSubloop S D dtC tv phys rd0 rdt).previousState.velocity.length
      = n := by
  unfold frameSubloop
  exact substepIter_lengths S D dtC tv n htv _ _ hval hvel hval hvel

/-- Counterexample to C7 as frozen: after frame timestamps 1000 then 0 the
consumed interval is -1 (see the C6 analysis), the sub-step loop runs zero
iterations, and the interpolation ratio of the frame is
1 + (-1)/(1/300) = -299, far outside the claimed interval (0, 1]. -/
theorem c7_interpolation_cex :
    (steps (mkSpring [0] 300 30 (1/10) (1/300) (1/24))
      [Event.setTarget [1], Event.frame 1000]).previousTime = some 1000 ∧
    (steps (mkSpring [0] 300 30 (1/10) (1/300) (1/24))
      [Event.setTarget [1], Event.frame 1000]).loopPoint =
      LoopPoint.awaitFrame2 ∧
    (runFrame
      (steps (mkSpring [0] 300 30 (1/10) (1/300) (1/24))
        [Event.setTarget [1], Event.frame 1000]).n
      (steps (mkSpring [0] 300 30 (1/10) (1/300) (1/24))
        [Event.setTarget [1], Event.frame 1000]).stiffness
      (steps (mkSpring [0] 300 30 (1/10) (1/300) (1/24))
        [Event.setTarget [1], Event.frame 1000]).damping
      (steps (mkSpring [0] 300 30 (1/10) (1/300) (1/24))
        [Event.setTarget [1], Event.frame 1000]).precision
      (steps (mkSpring [0] 300 30 (1/10) (1/300) (1/24))
        [Event.setTarget [1], Event.frame 1000]).dtCfg
      (steps (mkSpring [0] 300 30 (1/10) (1/300) (1/24))
        [Event.setTarget [1], Event.frame 1000]).targetValue
      (steps (mkSpring [0] 300 30 (1/10) (1/300) (1/24))
        [Event.setTarget [1], Event.frame 1000]).physicsState
      (steps (mkSpring [0] 300 30 (1/10) (1/300) (1/24))
        [Event.setTarget [1], Event.frame 1000]).remainingDelta
      (sampleDt
        (steps (mkSpring [0] 300 30 (1/10) (1/300) (1/24))
          [Event.setTarget [1], Event.frame 1000]).maxDt
        (steps (mkSpring [0] 300 30 (1/10) (1/300) (1/24))
          [Event.setTarget [1], Event.frame 1000]).dtCfg 1000 0)).ratio =
      -299 ∧
    ¬(0 < (-299 : ℚ) ∧ (-299 : ℚ) ≤ 1) := by
  have hcount : substepCount (-1 : ℚ) (1/300) = 0 := by
    unfold substepCount
    rw [if_pos (by norm_num : (0 : ℚ) < 1/300)]
    rw [show ((-1 : ℚ)) / (1/300) = -300 by norm_num]
    rw [show ⌈(-300 : ℚ)⌉ = -300 by exact_mod_cast Int.ceil_intCast (-300)]
    decide
  refine ⟨rfl, rfl, ?_, by norm_num⟩
  rw [runFrame_ratio]
  show 1 + (frameSubloop 300 30 (1/300) [1]
      (PhysicsState.mk (List.replicate 1 0) [0]) (List.replicate 1 0)
      (sampleDt (1/24) (1/300) 1000 0)).remainingDt / (1/300) = -299
  rw [sampleDt_out_of_order]
  unfold frameSubloop
  rw [hcount, substepIter_zero]
  norm_num

/-- Claim C7 (amended): on every frame whose consumed interval is positive
(which the fallback guarantees only for non-negative raw samples), the
leftover remainder r of the sub-step loop satisfies -dt < r <= 0, so the
interpolation ratio 1 + r/dt lies in (0, 1]; and on every non-terminal
frame the published interpolated state is the linear blend
ratio * currentPhysicsState + (1 - ratio) * previousPhysicsState,
componentwise for value and velocity.  The frozen claim, which asserts the
ratio bound on every frame iteration, is refuted by the counterexample
with a negative sampled interval. -/
theorem c7_interpolation_amended (n : ℕ) (S D p dtC : ℚ) (tv : List ℚ)
    (phys : PhysicsState) (rd0 : List ℚ) (rdt : ℚ)
    (hdt : 0 < dtC) (hrdt : 0 < rdt)
    (htv : tv.length = n) (hval : phys.value.length = n)
    (hvel : phys.velocity.length = n) (i : ℕ) (hi : i < n) :
    (0 < (runFrame n S D p dtC tv phys rd0 rdt).ratio ∧
      (runFrame n S D p dtC tv phys rd0 rdt).ratio ≤ 1) ∧
    ((runFrame n S D p dtC tv phys rd0 rdt).done = false →
      (runFrame n S D p dtC tv phys rd0 rdt).interpolated.value.getD i 0 =
        (runFrame n S D p dtC tv phys rd0 rdt).ratio *
          (frameSubloop S D dtC tv phys rd0
            rdt).physicsState.value.getD i 0 +
        (1 - (runFrame n S D p dtC tv phys rd0 rdt).ratio) *
          (frameSubloop S D dtC tv phys rd0
            rdt).previousState.value.getD i 0 ∧
      (runFrame n S D p dtC tv phys rd0 rdt).interpolated.velocity.getD i 0
        = (runFrame n S D p dtC tv phys rd0 rdt).ratio *
          (frameSubloop S D dtC tv phys rd0
            rdt).physicsState.velocity.getD i 0 +
        (1 - (runFrame n S D p dtC tv phys rd0 rdt).ratio) *
          (frameSubloop S D dtC tv phys rd0
            rdt).previousState.velocity.getD i 0) := by
  have hr := runFrame_ratio n S D p dtC tv phys rd0 rdt
  have hrem := frameSubloop_remainingDt S D dtC tv phys rd0 rdt
  obtain ⟨L1, L2, L3, L4⟩ := frameSubloop_lengths S D dtC tv phys rd0 rdt n
    htv hval hvel
  constructor
  · rw [hr, hrem]
    have hle := substepCount_exhausts rdt dtC hdt
    have hgt := substepCount_leftover rdt dtC hdt hrdt
    constructor
    · have hdiv : -1 < (rdt - (substepCount rdt dtC : ℚ) * dtC) / dtC := by
        rw [lt_div_iff₀ hdt]
        linarith
      linarith
    · have hdiv : (rdt - (substepCount rdt dtC : ℚ) * dtC) / dtC ≤ 0 := by
        rw [div_nonpos_iff]
        right
        exact ⟨hle, hdt.le⟩
      linarith
  · intro hdone
    have hnstop : ¬ stopCond p
        (frameSubloop S D dtC tv phys rd0 rdt).remainingDelta
        (frameSubloop S D dtC tv phys rd0 rdt).physicsState.velocity := by
      intro hstop
      have hd := (runFrame_done_iff n S D p dtC tv phys rd0 rdt).mpr hstop
      rw [hdone] at hd
      exact absurd hd (by decide)
    have hinterp := runFrame_not_done_interp n S D p dtC tv phys rd0 rdt
      hnstop
    rw [hinterp, hr]
    dsimp only
    constructor
    · rw [getD_add _ _ i (by rw [length_scale, L1]; exact hi)
          (by rw [length_scale, L3]; exact hi),
        getD_scale _ _ i (by rw [L1]; exact hi),
        getD_scale _ _ i (by rw [L3]; exact hi)]
      ring
    · rw [getD_add _ _ i (by rw [length_scale, L2]; exact hi)
          (by rw [length_scale, L4]; exact hi),
        getD_scale _ _ i (by rw [L2]; exact hi),
        getD_scale _ _ i (by rw [L4]; exact hi)]
      ring

/-- Witness for the amended C7 with the default configuration, one
sub-step interval and a scalar spring at rest. -/
theorem c7_interpolation_amended_w :
    (0 < (runFrame 1 300 30 (1/10) (1/300) [1]
        (PhysicsState.mk [0] [0]) [0] (1/300)).ratio ∧
      (runFrame 1 300 30 (1/10) (1/300) [1]
        (PhysicsState.mk [0] [0]) [0] (1/300)).ratio ≤ 1) ∧
    ((runFrame 1 300 30 (1/10) (1/300) [1]
        (PhysicsState.mk [0] [0]) [0] (1/300)).done = false →
      (runFrame 1 300 30 (1/10) (1/300) [1]
        (PhysicsState.mk [0] [0]) [0] (1/300)).interpolated.value.getD 0 0 =
        (runFrame 1 300 30 (1/10) (1/300) [1]
          (PhysicsState.mk [0] [0]) [0] (1/300)).ratio *
          (frameSubloop 300 30 (1/300) [1] (PhysicsState.mk [0] [0]) [0]
            (1/300)).physicsState.value.getD 0 0 +
        (1 - (runFrame 1 300 30 (1/10) (1/300) [1]
          (PhysicsState.mk [0] [0]) [0] (1/300)).ratio) *
          (frameSubloop 300 30 (1/300) [1] (PhysicsState.mk [0] [0]) [0]
            (1/300)).previousState.value.getD 0 0 ∧
      (runFrame 1 300 30 (1/10) (1/300) [1]
        (PhysicsState.mk [0] [0]) [0]
          (1/300)).interpolated.velocity.getD 0 0 =
        (runFrame 1 300 30 (1/10) (1/300) [1]
          (PhysicsState.mk [0] [0]) [0] (1/300)).ratio *
          (frameSubloop 300 30 (1/300) [1] (PhysicsState.mk [0] [0]) [0]
            (1/300)).physicsState.velocity.getD 0 0 +
        (1 - (runFrame 1 300 30 (1/10) (1/300) [1]
          (PhysicsState.mk [0] [0]) [0] (1/300)).ratio) *
          (frameSubloop 300 30 (1/300) [1] (PhysicsState.mk [0] [0]) [0]
            (1/300)).previousState.velocity.getD 0 0) :=
  c7_interpolation_amended 1 300 30 (1/10) (1/300) [1]
    (PhysicsState.mk [0] [0]) [0] (1/300) (by norm_num) (by norm_num)
    rfl rfl rfl 0 (by decide)

/-- Counterexample to C9 as frozen: pause() while the loop awaits its
first frame leaves the pending frame-wait untouched (same suspension
point), and the wait then completes normally with its timestamp, which the
loop records as previousTime; no pause error interrupts it.  In the source,
waitAnimationFrame is invoked with no abort signal and
SpringStorePauseError is never constructed. -/
theorem c9_pause_error_cex :
    (steps (mkSpring [0] 300 30 (1/10) (1/300) (1/24))
      [Event.setTarget [1], Event.callPause]).sstate = SState.pausing ∧
    (steps (mkSpring [0] 300 30 (1/10) (1/300) (1/24))
      [Event.setTarget [1], Event.callPause]).loopPoint =
      LoopPoint.awaitFrame1 ∧
    (steps (mkSpring [0] 300 30 (1/10) (1/300) (1/24))
      [Event.setTarget [1], Event.callPause]).loopPoint =
      (steps (mkSpring [0] 300 30 (1/10) (1/300) (1/24))
        [Event.setTarget [1]]).loopPoint ∧
    (steps (mkSpring [0] 300 30 (1/10) (1/300) (1/24))
      [Event.setTarget [1], Event.callPause, Event.frame 5]).previousTime =
      some 5 ∧
    (steps (mkSpring [0] 300 30 (1/10) (1/300) (1/24))
      [Event.setTarget [1], Event.callPause, Event.frame 5]).loopPoint =
      LoopPoint.awaitFrame2 :=
  ⟨rfl, rfl, rfl, rfl, rfl⟩

theorem onFrame_at_frame1 (m2 : Model) (t : ℚ)
    (h : m2.loopPoint = LoopPoint.awaitFrame1) :
    (onFrame m2 t).previousTime = Option.some t ∧
    (onFrame m2 t).loopPoint = LoopPoint.awaitFrame2 := by
  unfold onFrame
  rw [h]
  exact ⟨rfl, rfl⟩

/-- Claim C9 (amended): pause() while running transitions the state to
pausing but does not interrupt the pending frame-wait: the suspension
point and the recorded previous timestamp are unchanged, and a pending
first-frame wait still completes normally with its timestamp.  The pause
error class exists but is never raised in this version; the loop honours
the pause at the top of the iteration after the in-flight frame
completes. -/
theorem c9_pause_no_interrupt_amended (m : Model) (t : ℚ)
    (hs : m.sstate = SState.running) :
    (step m Event.callPause).loopPoint = m.loopPoint ∧
    (step m Event.callPause).previousTime = m.previousTime ∧
    (step m Event.callPause).sstate = SState.pausing ∧
    (m.loopPoint = LoopPoint.awaitFrame1 →
      (step (step m Event.callPause) (Event.frame t)).previousTime =
        Option.some t ∧
      (step (step m Event.callPause) (Event.frame t)).loopPoint =
        LoopPoint.awaitFrame2) := by
  have hp : step m Event.callPause = { emit m SState.pausing with
      pausePending := true, resumePending := true } := by
    show onPause m = _
    unfold onPause
    rw [if_pos hs]
  have h1 : (step m Event.callPause).loopPoint = m.loopPoint := by
    rw [hp]
    rfl
  have h2 : (step m Event.callPause).previousTime = m.previousTime := by
    rw [hp]
    rfl
  have h3 : (step m Event.callPause).sstate = SState.pausing := by
    rw [hp]
    rfl
  exact ⟨h1, h2, h3, fun hlp =>
    onFrame_at_frame1 (step m Event.callPause) t (h1.trans hlp)⟩

/-- Witness for the amended C9: a freshly started scalar run is paused
while awaiting its first frame; the wait survives and completes with
timestamp 5. -/
theorem c9_pause_no_interrupt_amended_w :
    (step (steps (mkSpring [0] 300 30 (1/10) (1/300) (1/24))
      [Event.setTarget [1]]) Event.callPause).loopPoint =
      (steps (mkSpring [0] 300 30 (1/10) (1/300) (1/24))
        [Event.setTarget [1]]).loopPoint ∧
    (step (steps (mkSpring [0] 300 30 (1/10) (1/300) (1/24))
      [Event.setTarget [1]]) Event.callPause).previousTime =
      (steps (mkSpring [0] 300 30 (1/10) (1/300) (1/24))
        [Event.setTarget [1]]).previousTime ∧
    (step (steps (mkSpring [0] 300 30 (1/10) (1/300) (1/24))
      [Event.setTarget [1]]) Event.callPause).sstate = SState.pausing ∧
    ((steps (mkSpring [0] 300 30 (1/10) (1/300) (1/24))
      [Event.setTarget [1]]).loopPoint = LoopPoint.awaitFrame1 →
      (step (step (steps (mkSpring [0] 300 30 (1/10) (1/300) (1/24))
        [Event.setTarget [1]]) Event.callPause)
        (Event.frame 5)).previousTime = Option.some 5 ∧
      (step (step (steps (mkSpring [0] 300 30 (1/10) (1/300) (1/24))
        [Event.setTarget [1]]) Event.callPause)
        (Event.frame 5)).loopPoint = LoopPoint.awaitFrame2) :=
  c9_pause_no_interrupt_amended
    (steps (mkSpring [0] 300 30 (1/10) (1/300) (1/24))
      [Event.setTarget [1]]) 5 rfl

end Spring
